import Mathlib

set_option maxRecDepth 4000

/-!
# Verification of the budgeting web application's transaction feed and import logic

A shallow embedding of the Node/Express budgeting server (`server.js`, the
revision containing `fetchTransactions`, the cursor codec and the
`/api/templates/import` handler) into Lean 4, together with proofs and
refutations of the specified properties.

Modelling conventions:
* JavaScript numbers are modelled as exact rationals (`ℚ`); IEEE-754 rounding
  is out of scope, and the arithmetic the handlers perform on amounts
  (`Math.round(x * 100) / 100`, comparisons with `1e-8`) is exact on `ℚ`.
* SQLite `TEXT` timestamp comparison is byte-wise lexicographic; it is
  modelled by `String` lexicographic order.
* The database is modelled per user (every SQL query in the source filters by
  `user_id`); auto-increment ids are modelled by explicit counters.
* `JSON.parse` is modelled by a recursive-descent parser over the JSON
  grammar restricted to integer numerals (every number the server ever
  serialises into a cursor is an integer); `Buffer` base64 and UTF-8
  conversions are modelled over byte lists.
-/

namespace Bdgt

/-- JavaScript whitespace recognised by `parseInt` when trimming. -/
def jsSpace (c : Char) : Bool :=
  c = ' ' ∨ c = '\t' ∨ c = '\n' ∨ c = '\r' ∨ c.toNat = 12 ∨ c.toNat = 11

/-- Decimal digit test on the code point. -/
def isDigitN (c : Char) : Bool :=
  48 ≤ c.toNat ∧ c.toNat ≤ 57

/-- ASCII lower-casing, the fragment of `toLowerCase()` the data exercises
(structurally recursive, unlike `String.toLower`). -/
def strToLower (s : String) : String :=
  String.mk (s.data.map Char.toLower)

/-- Whitespace trimming, modelling `String.prototype.trim` (structurally
recursive, unlike `String.trim`). -/
def strTrim (s : String) : String :=
  String.mk (((s.data.dropWhile Char.isWhitespace).reverse.dropWhile Char.isWhitespace).reverse)

/-- Model of `String.prototype.slice(0, n)`. -/
def strTake (s : String) (n : Nat) : String :=
  String.mk (s.data.take n)

/-- Lexicographic strict order on character lists by code point. This is the
order SQLite's byte-wise `TEXT` comparison induces on UTF-8 encoded strings
(UTF-8 preserves code-point order), and the order JavaScript's `<` induces
on the BMP strings the system stores. -/
def charListLt : List Char → List Char → Bool
  | [], [] => false
  | [], _ :: _ => true
  | _ :: _, [] => false
  | a :: as, b :: bs =>
    if a.toNat < b.toNat then true
    else if a.toNat = b.toNat then charListLt as bs
    else false

/-- Strict lexicographic order on strings. -/
def strLtB (a b : String) : Bool :=
  charListLt a.data b.data

/-- Non-strict lexicographic order on strings (total-order complement). -/
def strLeB (a b : String) : Bool :=
  !(strLtB b a)

/-- Value of the longest leading digit run, with the rest of the input;
`none` when the input does not start with a digit. -/
def digitsPrefix : List Char → Nat → Option Nat
  | [], acc => some acc
  | c :: cs, acc =>
    if isDigitN c then digitsPrefix cs (acc * 10 + (c.toNat - 48))
    else some acc

/-- Model of `Number.parseInt(s, 10)`: skip leading whitespace, optional
sign, longest digit prefix; `none` models `NaN`. -/
def jsParseInt (s : String) : Option Int :=
  let cs := s.data.dropWhile jsSpace
  match cs with
  | '-' :: rest =>
    match rest with
    | c :: _ => if isDigitN c then (digitsPrefix rest 0).map (fun n => -(n : Int)) else none
    | [] => none
  | '+' :: rest =>
    match rest with
    | c :: _ => if isDigitN c then (digitsPrefix rest 0).map (fun n => (n : Int)) else none
    | [] => none
  | c :: _ => if isDigitN c then (digitsPrefix cs 0).map (fun n => (n : Int)) else none
  | [] => none

/-- Model of `parseLimit(rawLimit, defaultValue = 20, maxValue = 50)`
(server.js): `Number.parseInt`, then `NaN`-or-nonpositive falls back to the
default, and the result is capped by `Math.min` at `maxValue`. A missing
query parameter parses to `NaN`. -/
def parseLimit (rawLimit : Option String) (defaultValue : Int := 20) (maxValue : Int := 50) : Int :=
  match rawLimit with
  | none => defaultValue
  | some s =>
    match jsParseInt s with
    | none => defaultValue
    | some parsed => if parsed ≤ 0 then defaultValue else min parsed maxValue

/-- Sort direction of the merged feed. -/
inductive SortDir where
  | newest
  | oldest
  deriving DecidableEq, Repr

/-- The wire string of a sort direction. -/
def SortDir.str : SortDir → String
  | .newest => "newest"
  | .oldest => "oldest"

/-- Model of `normalizeSort(value)`: falsy input defaults to newest, and only
the exact lowercased string `oldest` selects oldest. -/
def normalizeSort (value : Option String) : SortDir :=
  match value with
  | none => .newest
  | some s => if s = "" then .newest else if strToLower s = "oldest" then .oldest else .newest

/-- Model of `normalizeType(value)`: case-insensitive `income`/`expense`,
anything else (or falsy) gives `none`. -/
def normalizeType (value : String) : Option String :=
  if strToLower value = "income" then some "Income"
  else if strToLower value = "expense" then some "Expense"
  else none

/-- Model of `Math.round` (half-up, toward positive infinity on ties). -/
def jsRound (q : ℚ) : ℤ :=
  ⌊q + 1 / 2⌋

/-- Two-digit zero padding for `toFixed(2)`. -/
def pad2 (k : Nat) : String :=
  if k < 10 then "0" ++ toString k else toString k

/-- Model of `Number(x).toFixed(2)` for the exact rational `x`. -/
def qToFixed2 (q : ℚ) : String :=
  let n := jsRound (q * 100)
  let m := n.natAbs
  let s := toString (m / 100) ++ "." ++ pad2 (m % 100)
  if n < 0 then "-" ++ s else s

/-- A Unicode scalar value from a code point, `none` when out of range. -/
def mkChar? (n : Nat) : Option Char :=
  if h : n.isValidChar then some (Char.ofNatAux n h) else none

/-- UTF-8 encoding of one scalar value, as a byte list. -/
def utf8EncodeChar (c : Char) : List Nat :=
  let n := c.toNat
  if n < 128 then [n]
  else if n < 2048 then [192 + n / 64, 128 + n % 64]
  else if n < 65536 then [224 + n / 4096, 128 + (n / 64) % 64, 128 + n % 64]
  else [240 + n / 262144, 128 + (n / 4096) % 64, 128 + (n / 64) % 64, 128 + n % 64]

/-- UTF-8 encoding of a character list. -/
def utf8Encode (cs : List Char) : List Nat :=
  match cs with
  | [] => []
  | c :: rest => utf8EncodeChar c ++ utf8Encode rest

/-- Continuation-byte test. -/
def isCont (b : Nat) : Bool :=
  128 ≤ b ∧ b < 192

/-- First scalar value of a UTF-8 byte list: the decoded character and the
remaining bytes, `none` on an ill-formed head sequence. -/
def utf8Head : List Nat → Option (Char × List Nat)
  | [] => none
  | b :: bs =>
    if b < 128 then (mkChar? b).map fun c => (c, bs)
    else if b < 192 then none
    else if b < 224 then
      match bs with
      | b1 :: rest =>
        if isCont b1 then (mkChar? ((b - 192) * 64 + (b1 - 128))).map fun c => (c, rest)
        else none
      | [] => none
    else if b < 240 then
      match bs with
      | b1 :: b2 :: rest =>
        if isCont b1 ∧ isCont b2 then
          (mkChar? ((b - 224) * 4096 + (b1 - 128) * 64 + (b2 - 128))).map fun c => (c, rest)
        else none
      | _ => none
    else if b < 248 then
      match bs with
      | b1 :: b2 :: b3 :: rest =>
        if isCont b1 ∧ isCont b2 ∧ isCont b3 then
          (mkChar? ((b - 240) * 262144 + (b1 - 128) * 4096 + (b2 - 128) * 64 + (b3 - 128))).map
            fun c => (c, rest)
        else none
      | _ => none
    else none

/-- UTF-8 decoding of a byte list, fuelled by the byte count (each step
consumes at least one byte, so the fuel never runs out on the initial call):
`none` on any ill-formed sequence. (Node's `buf.toString('utf8')` instead
substitutes U+FFFD for ill-formed sequences; the difference only moves some
failures from this stage to the JSON-parse stage, and well-formed byte lists
— in particular every `encodeCursor` output — decode identically.) -/
def utf8DecodeAux : Nat → List Nat → Option (List Char)
  | _, [] => some []
  | 0, _ :: _ => none
  | fuel + 1, b :: bs =>
    match utf8Head (b :: bs) with
    | some (c, rest) => (utf8DecodeAux fuel rest).map fun cs => c :: cs
    | none => none

/-- UTF-8 decoding of a byte list; `none` on any ill-formed sequence. -/
def utf8Decode (bs : List Nat) : Option (List Char) :=
  utf8DecodeAux bs.length bs
/-- The base64 alphabet character of a sextet. -/
def b64Char (n : Nat) : Char :=
  if n < 26 then Char.ofNat (65 + n)
  else if n < 52 then Char.ofNat (97 + (n - 26))
  else if n < 62 then Char.ofNat (48 + (n - 52))
  else if n = 62 then '+'
  else '/'

/-- Model of `Buffer.prototype.toString('base64')` on a byte list. -/
def b64Encode : List Nat → List Char
  | [] => []
  | [a] => [b64Char (a / 4), b64Char (a % 4 * 16), '=', '=']
  | [a, b] => [b64Char (a / 4), b64Char (a % 4 * 16 + b / 16), b64Char (b % 16 * 4), '=']
  | a :: b :: c :: rest =>
    b64Char (a / 4) :: b64Char (a % 4 * 16 + b / 16) :: b64Char (b % 16 * 4 + c / 64) ::
      b64Char (c % 64) :: b64Encode rest

/-- Sextet value of a base64 alphabet character. -/
def b64CharVal (c : Char) : Option Nat :=
  let n := c.toNat
  if 65 ≤ n ∧ n ≤ 90 then some (n - 65)
  else if 97 ≤ n ∧ n ≤ 122 then some (n - 71)
  else if 48 ≤ n ∧ n ≤ 57 then some (n + 4)
  else if n = 43 then some 62
  else if n = 47 then some 63
  else none

/-- Model of `Buffer.from(s, 'base64')` as a strict inverse of `b64Encode`.
Node's decoder is more lenient: it skips characters outside the alphabet,
stops at `=`, and accepts unpadded input, so this model's decode-failure set
is a strict superset of JSON-parse-stage failures in the real pipeline. Every
canonical `encodeCursor` output decodes identically under both, and the
theorems that mention decode failure state the route's control flow on a
failed decode, not which exact tokens fail. -/
def b64Decode : List Char → Option (List Nat)
  | [] => some []
  | [c1, c2, '=', '='] =>
    match b64CharVal c1, b64CharVal c2 with
    | some a, some b => some [a * 4 + b / 16]
    | _, _ => none
  | [c1, c2, c3, '='] =>
    match b64CharVal c1, b64CharVal c2, b64CharVal c3 with
    | some a, some b, some c => some [a * 4 + b / 16, b % 16 * 16 + c / 4]
    | _, _, _ => none
  | c1 :: c2 :: c3 :: c4 :: rest =>
    match b64CharVal c1, b64CharVal c2, b64CharVal c3, b64CharVal c4, b64Decode rest with
    | some a, some b, some c, some d, some bs =>
      some ((a * 4 + b / 16) :: (b % 16 * 16 + c / 4) :: (c % 4 * 64 + d) :: bs)
    | _, _, _, _, _ => none
  | _ => none

/-- JSON values, with numbers restricted to integers: every number the server
serialises into a cursor (`typeOrder`, `id`) is an integer, so the codec is
modelled on the integral fragment of the JSON number grammar. -/
inductive Json where
  | null
  | bool (b : Bool)
  | num (n : Int)
  | str (s : String)
  | arr (elems : List Json)
  | obj (fields : List (String × Json))

/-- JSON string escaping of one character, as `JSON.stringify` performs it
(quote, backslash, the named control escapes, `\u00XX` for the remaining
control characters). -/
def jsonEscapeChar (c : Char) : List Char :=
  let n := c.toNat
  if n = 34 then ['\\', '"']
  else if n = 92 then ['\\', '\\']
  else if n = 8 then ['\\', 'b']
  else if n = 9 then ['\\', 't']
  else if n = 10 then ['\\', 'n']
  else if n = 12 then ['\\', 'f']
  else if n = 13 then ['\\', 'r']
  else if n < 32 then ['\\', 'u', '0', '0', hexDigit (n / 16), hexDigit (n % 16)]
  else [c]
where
  /-- Lower-case hexadecimal digit. -/
  hexDigit (k : Nat) : Char :=
    if k < 10 then Char.ofNat (48 + k) else Char.ofNat (87 + k)

/-- Escaped body of a JSON string literal. -/
def jsonEscape : List Char → List Char
  | [] => []
  | c :: cs => jsonEscapeChar c ++ jsonEscape cs

/-- Decimal digits of a natural number below `10 ^ fuel`, most significant
first (fuelled so the definition is structurally recursive). -/
def natDigitsAux : Nat → Nat → List Char
  | 0, _ => []
  | fuel + 1, n =>
    if n < 10 then [Char.ofNat (48 + n)]
    else natDigitsAux fuel (n / 10) ++ [Char.ofNat (48 + n % 10)]

/-- Decimal digits of a natural number, most significant first. -/
def natDigits (n : Nat) : List Char :=
  natDigitsAux (n + 1) n

/-- Decimal numeral of an integer. -/
def intDigits (n : Int) : List Char :=
  if n < 0 then '-' :: natDigits n.natAbs else natDigits n.natAbs

/-- Model of `JSON.stringify` (on the integral-number fragment). -/
def jsonStringify : Json → List Char
  | .null => "null".data
  | .bool true => "true".data
  | .bool false => "false".data
  | .num n => intDigits n
  | .str s => '"' :: (jsonEscape s.data ++ ['"'])
  | .arr elems => '[' :: (stringifyElems elems ++ [']'])
  | .obj fields => Char.ofNat 123 :: (stringifyFields fields ++ [Char.ofNat 125])
where
  /-- Comma-separated serialisation of array elements. -/
  stringifyElems : List Json → List Char
    | [] => []
    | [e] => jsonStringify e
    | e :: rest => jsonStringify e ++ ',' :: stringifyElems rest
  /-- Comma-separated serialisation of object members. -/
  stringifyFields : List (String × Json) → List Char
    | [] => []
    | [(k, v)] => '"' :: (jsonEscape k.data ++ ['"', ':']) ++ jsonStringify v
    | (k, v) :: rest =>
      '"' :: (jsonEscape k.data ++ ['"', ':']) ++ jsonStringify v ++ ',' :: stringifyFields rest

/-- Value of a hexadecimal digit character. -/
def hexVal (c : Char) : Option Nat :=
  let n := c.toNat
  if 48 ≤ n ∧ n ≤ 57 then some (n - 48)
  else if 97 ≤ n ∧ n ≤ 102 then some (n - 87)
  else if 65 ≤ n ∧ n ≤ 70 then some (n - 55)
  else none

/-- One escape sequence after a backslash: the decoded character and the
remaining input. -/
def escStep : List Char → Option (Char × List Char)
  | [] => none
  | e :: rest =>
    if e = '"' ∨ e = '\\' ∨ e = '/' then some (e, rest)
    else if e = 'b' then some (Char.ofNat 8, rest)
    else if e = 't' then some (Char.ofNat 9, rest)
    else if e = 'n' then some (Char.ofNat 10, rest)
    else if e = 'f' then some (Char.ofNat 12, rest)
    else if e = 'r' then some (Char.ofNat 13, rest)
    else if e = 'u' then
      match rest with
      | h1 :: h2 :: h3 :: h4 :: rest2 =>
        match hexVal h1, hexVal h2, hexVal h3, hexVal h4 with
        | some a, some b, some c2, some d =>
          (mkChar? (a * 4096 + b * 256 + c2 * 16 + d)).map fun ch => (ch, rest2)
        | _, _, _, _ => none
      | _ => none
    else none

/-- Body of a JSON string literal (the opening quote already consumed),
fuelled by the input length (every step consumes at least one character):
returns the decoded characters and the input after the closing quote. -/
def parseStringBodyAux : Nat → List Char → Option (List Char × List Char)
  | _, [] => none
  | 0, _ :: _ => none
  | fuel + 1, c :: cs =>
    if c = '"' then some ([], cs)
    else if c = '\\' then
      (escStep cs).bind fun p =>
        (parseStringBodyAux fuel p.2).map fun q => (p.1 :: q.1, q.2)
    else if c.toNat < 32 then none
    else
      (parseStringBodyAux fuel cs).map fun q => (c :: q.1, q.2)

/-- Body of a JSON string literal (the opening quote already consumed):
returns the decoded characters and the input after the closing quote. -/
def parseStringBody (cs : List Char) : Option (List Char × List Char) :=
  parseStringBodyAux cs.length cs
/-- Longest run of decimal digits, accumulator style. -/
def digitRun : List Char → Nat → Nat × List Char
  | [], acc => (acc, [])
  | c :: cs, acc =>
    if isDigitN c then digitRun cs (acc * 10 + (c.toNat - 48))
    else (acc, c :: cs)

/-- Integral JSON numeral (optional minus, digit run). -/
def parseIntNum : List Char → Option (Int × List Char)
  | [] => none
  | c :: cs =>
    if c = '-' then
      match cs with
      | c2 :: _ =>
        if isDigitN c2 then
          let (n, rem) := digitRun cs 0
          some (-(n : Int), rem)
        else none
      | [] => none
    else if isDigitN c then
      let (n, rem) := digitRun (c :: cs) 0
      some ((n : Int), rem)
    else none

/-- JavaScript `Map.set` / object-literal semantics for repeated keys: the
first occurrence keeps its position, the last occurrence keeps its value. -/
def assocSet {β : Type} (ms : List (String × β)) (k : String) (v : β) : List (String × β) :=
  match ms with
  | [] => [(k, v)]
  | (k0, v0) :: rest => if k0 = k then (k, v) :: rest else (k0, v0) :: assocSet rest k v

/-- JavaScript `Map.get` on an association list. -/
def lookupA {β : Type} (ms : List (String × β)) (k : String) : Option β :=
  (ms.find? (fun e => e.1 = k)).map (fun e => e.2)

/-- Fold a raw member list into JavaScript object semantics. -/
def dedupeFields (ms : List (String × Json)) : List (String × Json) :=
  ms.foldl (fun acc m => assocSet acc m.1 m.2) []

/-- The `:` expected between a member key and its value. -/
def expectColon : List Char → Option (List Char)
  | ':' :: rest => some rest
  | _ => none

mutual

/-- Model of `JSON.parse` value parsing (whitespace-free grammar, integral
numbers), fuelled by nesting depth. -/
def parseValue : Nat → List Char → Option (Json × List Char)
  | 0, _ => none
  | fuel + 1, cs =>
    match cs with
    | [] => none
    | c :: rest =>
      if c = '"' then
        (parseStringBody rest).map fun p => (.str (String.mk p.1), p.2)
      else if c = Char.ofNat 123 then
        match rest with
        | c2 :: rest2 =>
          if c2 = Char.ofNat 125 then some (.obj [], rest2)
          else (parseMembers fuel rest).map fun p => (.obj (dedupeFields p.1), p.2)
        | [] => none
      else if c = '[' then
        match rest with
        | c2 :: rest2 =>
          if c2 = ']' then some (.arr [], rest2)
          else (parseElems fuel rest).map fun p => (.arr p.1, p.2)
        | [] => none
      else if c = 't' then
        match rest with
        | 'r' :: 'u' :: 'e' :: rem => some (.bool true, rem)
        | _ => none
      else if c = 'f' then
        match rest with
        | 'a' :: 'l' :: 's' :: 'e' :: rem => some (.bool false, rem)
        | _ => none
      else if c = 'n' then
        match rest with
        | 'u' :: 'l' :: 'l' :: rem => some (.null, rem)
        | _ => none
      else
        (parseIntNum cs).map fun p => (.num p.1, p.2)

/-- Members of a JSON object after the opening brace (or a comma). -/
def parseMembers : Nat → List Char → Option (List (String × Json) × List Char)
  | 0, _ => none
  | fuel + 1, cs =>
    match cs with
    | c :: rest =>
      if c = '"' then
        (parseStringBody rest).bind fun kp =>
        (expectColon kp.2).bind fun rem2 =>
        (parseValue fuel rem2).bind fun vp =>
        match vp.2 with
        | c3 :: rem4 =>
          if c3 = ',' then
            (parseMembers fuel rem4).map fun mp => ((String.mk kp.1, vp.1) :: mp.1, mp.2)
          else if c3 = Char.ofNat 125 then some ([(String.mk kp.1, vp.1)], rem4)
          else none
        | [] => none
      else none
    | [] => none

/-- Elements of a JSON array after the opening bracket (or a comma). -/
def parseElems : Nat → List Char → Option (List Json × List Char)
  | 0, _ => none
  | fuel + 1, cs =>
    (parseValue fuel cs).bind fun vp =>
    match vp.2 with
    | c :: rem2 =>
      if c = ',' then
        (parseElems fuel rem2).map fun ep => (vp.1 :: ep.1, ep.2)
      else if c = ']' then some ([vp.1], rem2)
      else none
    | [] => none

end

/-- Model of `JSON.parse`: parse one value consuming the entire input. -/
def jsonParse (cs : List Char) : Option Json :=
  match parseValue (cs.length + 1) cs with
  | some (v, []) => some v
  | _ => none

/-- The cursor record the feed engine serialises
(`{ sort, date, typeOrder, id }`, in that key order). -/
structure CursorRec where
  sort : String
  date : String
  typeOrder : Int
  id : Int
  deriving DecidableEq, Repr

/-- The JSON object literal `encodeCursor` stringifies. -/
def cursorToJson (c : CursorRec) : Json :=
  .obj [("sort", .str c.sort), ("date", .str c.date),
        ("typeOrder", .num c.typeOrder), ("id", .num c.id)]

/-- Model of `encodeCursor(cursor)`:
`Buffer.from(JSON.stringify(cursor)).toString('base64')`. -/
def encodeCursor (c : CursorRec) : String :=
  String.mk (b64Encode (utf8Encode (jsonStringify (cursorToJson c))))

/-- Model of `decodeCursor(cursor)`:
`JSON.parse(Buffer.from(cursor, 'base64').toString('utf-8'))` with the
`try/catch` modelled by `Option` — every failure yields `none`, never an
uncaught exception. -/
def decodeCursor (s : String) : Option Json :=
  match b64Decode s.data with
  | some bytes =>
    match utf8Decode bytes with
    | some cs => jsonParse cs
    | none => none
  | none => none

/-- JavaScript property access `j.k` on a parsed JSON value (`none` models
`undefined`). -/
def jget (j : Json) (k : String) : Option Json :=
  match j with
  | .obj fs => (fs.find? (fun f => f.1 = k)).map (fun f => f.2)
  | _ => none

/-- JavaScript truthiness of a parsed JSON value. -/
def jsonTruthy (j : Json) : Bool :=
  match j with
  | .null => false
  | .bool b => b
  | .num n => n ≠ 0
  | .str s => s ≠ ""
  | .arr _ => true
  | .obj _ => true

/-- Truthiness of a possibly-absent property (`undefined` is falsy). -/
def jgetTruthy (j : Json) (k : String) : Bool :=
  match jget j k with
  | some v => jsonTruthy v
  | none => false

/-- The `typeof x === 'number'` test on a property. -/
def jgetIsNum (j : Json) (k : String) : Bool :=
  match jget j k with
  | some (.num _) => true
  | _ => false

/-- The `typeof x === 'object'` test (arrays and objects; `null` is excluded
by the preceding truthiness check in the caller). -/
def jsonIsObjLike (j : Json) : Bool :=
  match j with
  | .obj _ => true
  | .arr _ => true
  | .null => true
  | _ => false

/-- The `x.sort !== normalizedSort` test: strict equality of a property
against a string. -/
def jgetStrEq (j : Json) (k : String) (s : String) : Bool :=
  match jget j k with
  | some (.str s2) => s2 = s
  | _ => false

/-- Decidable equality for `Except` results (used by concrete witnesses). -/
instance {ε α : Type} [DecidableEq ε] [DecidableEq α] : DecidableEq (Except ε α) := fun a b =>
  match a, b with
  | .ok x, .ok y =>
    if h : x = y then .isTrue (by rw [h]) else .isFalse (fun hc => h (Except.ok.inj hc))
  | .error x, .error y =>
    if h : x = y then .isTrue (by rw [h]) else .isFalse (fun hc => h (Except.error.inj hc))
  | .ok _, .error _ => .isFalse (fun hc => Except.noConfusion hc)
  | .error _, .ok _ => .isFalse (fun hc => Except.noConfusion hc)

/-- A row of the `Income` table (per user). -/
structure IncomeRow where
  id : Nat
  amount : ℚ
  source : String
  date : String
  deriving DecidableEq, Repr

/-- A row of the `Expenditure` table (per user); `categoryId` models the
nullable `user_category_id`. -/
structure ExpenseRow where
  id : Nat
  categoryId : Option Nat
  amount : ℚ
  description : String
  date : String
  deriving DecidableEq, Repr

/-- A row of the `UserCategory` table (per user). -/
structure Category where
  id : Nat
  name : String
  budgetType : String
  deriving DecidableEq, Repr

/-- A row of the `RecurringExpenditure` table (per user). -/
structure RecRow where
  id : Nat
  categoryId : Nat
  description : String
  amount : ℚ
  deriving DecidableEq, Repr

/-- One user's slice of the persistent store, with the auto-increment
counters made explicit. -/
structure Db where
  income : List IncomeRow
  expend : List ExpenseRow
  categories : List Category
  recurring : List RecRow
  nextIncomeId : Nat
  nextExpenseId : Nat
  nextCategoryId : Nat
  nextRecurringId : Nat
  deriving DecidableEq, Repr

/-- A row of the `UNION ALL` subquery inside `fetchTransactions`. -/
structure FeedRow where
  date : String
  id : Nat
  typeOrder : Nat
  type : String
  amount : ℚ
  source : Option String
  description : Option String
  categoryId : Option Nat
  categoryName : Option String
  categoryBudget : Option String
  deriving DecidableEq, Repr

/-- The `LEFT JOIN UserCategory uc ON uc.id = e.user_category_id` lookup. -/
def findCategory (db : Db) (cid : Option Nat) : Option Category :=
  cid.bind (fun c => db.categories.find? (fun cat => cat.id = c))

/-- The `Income` branch of the `UNION ALL`. -/
def incomeFeedRow (r : IncomeRow) : FeedRow :=
  { date := r.date, id := r.id, typeOrder := 0, type := "Income", amount := r.amount,
    source := some r.source, description := none, categoryId := none,
    categoryName := none, categoryBudget := none }

/-- The `Expenditure` branch of the `UNION ALL`. -/
def expenseFeedRow (db : Db) (e : ExpenseRow) : FeedRow :=
  { date := e.date, id := e.id, typeOrder := 1, type := "Expense", amount := e.amount,
    source := none, description := some e.description, categoryId := e.categoryId,
    categoryName := (findCategory db e.categoryId).map (fun c => c.name),
    categoryBudget := (findCategory db e.categoryId).map (fun c => c.budgetType) }

/-- The merged source: the user's income rows followed by expense rows. -/
def unionRows (db : Db) : List FeedRow :=
  db.income.map incomeFeedRow ++ db.expend.map (expenseFeedRow db)

/-- A category filter as parsed by the route handler. -/
inductive CatFilter where
  | uncategorized
  | byId (v : Int)
  deriving DecidableEq, Repr

/-- SQLite values a decoded cursor's `date` field can be bound as.  SQLite
orders storage classes `NULL < numeric < TEXT`; the rows' `sort_date` column
is always `TEXT`. -/
inductive SqlV where
  | null
  | num (q : ℚ)
  | text (s : String)
  deriving DecidableEq, Repr

/-- Binding of a decoded JSON value as an SQL parameter, as node-sqlite3
performs it: strings bind as `TEXT`, numbers as numeric, booleans as the
integers `0`/`1`, `null` as `NULL`. Arrays and objects are unsupported: the
driver throws `TypeError: Datatype is not supported` (the error carries no
`statusCode`, so the route's catch turns it into an HTTP 500), modelled as
`none`. -/
def jsonToSql (j : Json) : Option SqlV :=
  match j with
  | .null => some .null
  | .bool b => some (.num (if b then 1 else 0))
  | .num n => some (.num (n : ℚ))
  | .str s => some (.text s)
  | .arr _ => none
  | .obj _ => none

/-- The SQL comparison `sort_date < ?` for a `TEXT` row date. -/
def sqlDateLt (rowDate : String) (v : SqlV) : Bool :=
  match v with
  | .null => false
  | .num _ => false
  | .text s => strLtB rowDate s

/-- The SQL comparison `sort_date > ?` for a `TEXT` row date. -/
def sqlDateGt (rowDate : String) (v : SqlV) : Bool :=
  match v with
  | .null => false
  | .num _ => true
  | .text s => strLtB s rowDate

/-- The SQL comparison `sort_date = ?` for a `TEXT` row date. -/
def sqlDateEq (rowDate : String) (v : SqlV) : Bool :=
  match v with
  | .text s => rowDate = s
  | _ => false

/-- The cursor `WHERE` condition of `fetchTransactions`: for `newest`,
`sort_date < d OR (sort_date = d AND (type_order > t OR (type_order = t AND
sort_id < i)))`; for `oldest` every inequality flips except the `type_order`
comparison. -/
def cursorCond (dir : SortDir) (cdate : SqlV) (ctype cid : Int) (r : FeedRow) : Bool :=
  match dir with
  | .newest =>
    sqlDateLt r.date cdate ||
      (sqlDateEq r.date cdate &&
        (decide (ctype < (r.typeOrder : Int)) ||
          (decide ((r.typeOrder : Int) = ctype) && decide ((r.id : Int) < cid))))
  | .oldest =>
    sqlDateGt r.date cdate ||
      (sqlDateEq r.date cdate &&
        (decide (ctype < (r.typeOrder : Int)) ||
          (decide ((r.typeOrder : Int) = ctype) && decide (cid < (r.id : Int)))))

/-- The `type = ?` filter. -/
def matchesType (tf : Option String) (r : FeedRow) : Bool :=
  match tf with
  | none => true
  | some t => r.type = t

/-- The category filter conditions. -/
def matchesCategory (cf : Option CatFilter) (r : FeedRow) : Bool :=
  match cf with
  | none => true
  | some .uncategorized => r.type = "Expense" ∧ r.categoryId = none
  | some (.byId v) =>
    decide (r.type = "Expense") &&
      (match r.categoryId with
       | some c => decide ((c : Int) = v)
       | none => false)

/-- The `sort_date >= ?` bound. -/
def matchesFrom (df : Option String) (r : FeedRow) : Bool :=
  match df with
  | none => true
  | some d => strLeB d r.date

/-- The `sort_date <= ?` bound. -/
def matchesTo (dt : Option String) (r : FeedRow) : Bool :=
  match dt with
  | none => true
  | some d => strLeB r.date d

/-- All non-cursor filters, conjoined as in the SQL `WHERE` clause. -/
def matchesFilters (tf : Option String) (cf : Option CatFilter)
    (df dt : Option String) (r : FeedRow) : Bool :=
  matchesType tf r ∧ matchesCategory cf r ∧ matchesFrom df r ∧ matchesTo dt r

/-- The `ORDER BY` comparator as a total boolean order: `newest` is
`sort_date DESC, type_order ASC, sort_id DESC`; `oldest` is
`sort_date ASC, type_order ASC, sort_id ASC`. -/
def feedLe (dir : SortDir) (a b : FeedRow) : Bool :=
  match dir with
  | .newest =>
    if a.date = b.date then
      if a.typeOrder = b.typeOrder then b.id ≤ a.id
      else a.typeOrder < b.typeOrder
    else strLtB b.date a.date
  | .oldest =>
    if a.date = b.date then
      if a.typeOrder = b.typeOrder then a.id ≤ b.id
      else a.typeOrder < b.typeOrder
    else strLtB a.date b.date

/-- The comparator as a decidable relation for `insertionSort`. -/
def FeedRel (dir : SortDir) (a b : FeedRow) : Prop :=
  feedLe dir a b = true

instance (dir : SortDir) : DecidableRel (FeedRel dir) :=
  fun a b => instDecidableEqBool (feedLe dir a b) true

/-- The filtered and ordered result set of the `fetchTransactions` query
(before `LIMIT`): the SQL engine's `ORDER BY` is modelled by a sort with the
row comparator. -/
def queryRows (db : Db) (dir : SortDir) (tf : Option String) (cf : Option CatFilter)
    (df dt : Option String) (cc : Option (SqlV × Int × Int)) : List FeedRow :=
  List.insertionSort (FeedRel dir)
    ((unionRows db).filter
      (fun r =>
        matchesFilters tf cf df dt r &&
          (match cc with
           | none => true
           | some (cdate, ctype, cid) => cursorCond dir cdate ctype cid r)))

/-- An item of the `/api/transactions` response, as mapped from a row
(`budgetType` duplicates `category_budget_type`, as in the source). -/
structure Item where
  id : Nat
  type : String
  amount : ℚ
  date : String
  source : Option String
  description : Option String
  category_id : Option Nat
  category_name : Option String
  category_budget_type : Option String
  budgetType : Option String
  deriving DecidableEq, Repr

/-- The row-to-DTO mapping at the end of `fetchTransactions`. -/
def toDTO (r : FeedRow) : Item :=
  { id := r.id, type := r.type, amount := r.amount, date := r.date, source := r.source,
    description := r.description, category_id := r.categoryId,
    category_name := r.categoryName, category_budget_type := r.categoryBudget,
    budgetType := r.categoryBudget }

/-- A `/api/transactions` response page. -/
structure Page where
  items : List Item
  nextCursor : Option String
  deriving DecidableEq, Repr

/-- An HTTP error response (`status`, `message`). -/
structure HttpError where
  status : Nat
  message : String
  deriving DecidableEq, Repr

/-- Numeric property of a decoded cursor (callers guard with `jgetIsNum`). -/
def jgetNum (j : Json) (k : String) : Int :=
  match jget j k with
  | some (.num n) => n
  | _ => 0

/-- The cursor validation and condition-building block of
`fetchTransactions`: a falsy cursor skips the block entirely (`if (cursor)`),
a truthy cursor must be object-like, have a truthy `date`, numeric
`typeOrder` and `id`, and a `sort` equal to the normalised sort, otherwise
the function throws a 400 `Invalid cursor.` error. A cursor that passes this
validation but whose `date` is a truthy array or object reaches the query
with an unbindable parameter: node-sqlite3 throws
`TypeError: Datatype is not supported` when the statement runs, which the
route's catch (`error?.statusCode || 500`, `error?.message`) surfaces as an
HTTP 500; the pure model raises that error here, as nothing observable
happens between this block and the query execution. -/
def fetchCursorCond (dir : SortDir) (cursor : Option Json) :
    Except HttpError (Option (SqlV × Int × Int)) :=
  match cursor with
  | none => .ok none
  | some j =>
    if jsonTruthy j then
      if jsonIsObjLike j ∧ jgetTruthy j "date" ∧ jgetIsNum j "typeOrder" ∧ jgetIsNum j "id" ∧
          jgetStrEq j "sort" dir.str then
        match jsonToSql ((jget j "date").getD .null) with
        | some v => .ok (some (v, jgetNum j "typeOrder", jgetNum j "id"))
        | none => .error ⟨500, "Datatype is not supported"⟩
      else .error ⟨400, "Invalid cursor."⟩
    else .ok none

/-- Model of `fetchTransactions` (server.js): clamp the limit to `[1, 50]`,
fetch `clampedLimit + 1` rows matching the filters, the cursor condition and
the order clause; if more than `clampedLimit` rows come back, return the
first `clampedLimit` as items and encode the `(limit+1)`-th row's triple as
`nextCursor`, otherwise return all rows with no cursor. -/
def fetchTransactions (db : Db) (limit : Int) (sort : Option String) (cursor : Option Json)
    (typeFilter : Option String) (categoryFilter : Option CatFilter)
    (dateFrom dateTo : Option String) : Except HttpError Page :=
  let dir := normalizeSort sort
  let clamped : Nat := (min (max limit 1) 50).toNat
  match fetchCursorCond dir cursor with
  | .error e => .error e
  | .ok cc =>
    let rows := (queryRows db dir typeFilter categoryFilter dateFrom dateTo cc).take (clamped + 1)
    let items := if clamped < rows.length then rows.take clamped else rows
    let nextCursor :=
      if clamped < rows.length then
        (rows[clamped]?).map
          (fun lastRow =>
            encodeCursor ⟨dir.str, lastRow.date, (lastRow.typeOrder : Int), (lastRow.id : Int)⟩)
      else none
    .ok { items := items.map toDTO, nextCursor := nextCursor }

/-- The query-string parameters of `GET /api/transactions` (each is `none`
when absent or not a string; `fromQ`/`toQ` model `from`/`to`, renamed because
`from` is reserved in Lean). -/
structure QueryParams where
  limit : Option String
  sort : Option String
  cursor : Option String
  type : Option String
  category_id : Option String
  fromQ : Option String
  toQ : Option String
  deriving DecidableEq, Repr

/-- The route-level cursor decode-and-check:
`if (!decodedCursor || decodedCursor.sort !== sort) -> 400`. -/
def routeCursor (dir : SortDir) (copt : Option String) : Except HttpError (Option Json) :=
  match copt with
  | none => .ok none
  | some cs =>
    match decodeCursor cs with
    | none => .error ⟨400, "Invalid cursor."⟩
    | some j =>
      if jsonTruthy j = false then .error ⟨400, "Invalid cursor."⟩
      else if jgetStrEq j "sort" dir.str = false then .error ⟨400, "Invalid cursor."⟩
      else .ok (some j)

/-- The route-level `type` parameter handling (falsy raw or trimmed-empty
means no filter; an unrecognised value is a 400). -/
def routeType (t : Option String) : Except HttpError (Option String) :=
  match t with
  | none => .ok none
  | some raw =>
    if raw = "" then .ok none
    else
      let tt := strTrim raw
      if tt = "" then .ok none
      else
        match normalizeType tt with
        | some tf => .ok (some tf)
        | none => .error ⟨400, "Invalid type parameter."⟩

/-- The route-level `category_id` parameter handling: the sentinel
`uncategorized` (case-insensitive) or a positive integer. -/
def routeCategory (c : Option String) : Except HttpError (Option CatFilter) :=
  match c with
  | none => .ok none
  | some raw =>
    if raw = "" then .ok none
    else
      let cc := strTrim raw
      if cc = "" then .ok none
      else if strToLower cc = "uncategorized" then .ok (some .uncategorized)
      else
        match jsParseInt cc with
        | none => .error ⟨400, "Invalid category identifier."⟩
        | some v =>
          if v ≤ 0 then .error ⟨400, "Invalid category identifier."⟩
          else .ok (some (.byId v))

/-- Template for an ISO-8601 UTC timestamp (`0` marks a digit position). -/
def isoTemplate : List Char := "0000-00-00T00:00:00.000Z".data

/-- Character-wise match against `isoTemplate`. -/
def matchesIsoT : List Char → List Char → Bool
  | [], [] => true
  | t :: ts, c :: cs => (if t = '0' then isDigitN c else decide (c = t)) && matchesIsoT ts cs
  | _, _ => false

/-- Simplified model of `new Date(string)` validation plus `toISOString()`:
accepts exactly full ISO-8601 UTC strings and returns them unchanged. (The
real ECMAScript date parser accepts more formats; no claim depends on which
date strings are accepted, only on the accept/reject control flow.) -/
def jsDateParse (s : String) : Option String :=
  if matchesIsoT isoTemplate s.data then some s else none

/-- The route-level `from`/`to` parameter handling. -/
def routeDate (isFrom : Bool) (s : Option String) : Except HttpError (Option String) :=
  match s with
  | none => .ok none
  | some raw =>
    if raw = "" then .ok none
    else
      match jsDateParse raw with
      | some iso => .ok (some iso)
      | none => .error ⟨400, if isFrom then "Invalid from date." else "Invalid to date."⟩

/-- Model of the `GET /api/transactions` handler: parameter parsing and
validation in source order, then the fetch. -/
def transactionsHandler (db : Db) (qp : QueryParams) : Except HttpError Page := do
  let limit := parseLimit qp.limit 20 50
  let dir := normalizeSort qp.sort
  let cursorJ ← routeCursor dir qp.cursor
  let tf ← routeType qp.type
  let cf ← routeCategory qp.category_id
  if tf = some "Income" ∧ cf.isSome then
    throw ⟨400, "Category filter only applies to expenses."⟩
  let df ← routeDate true qp.fromQ
  let dt ← routeDate false qp.toQ
  match df, dt with
  | some f, some t =>
    if strLtB t f then throw ⟨400, "from must be earlier than to."⟩
  | _, _ => pure ()
  fetchTransactions db limit (some dir.str) cursorJ tf cf df dt

/-- Model of `POST /api/income`: `Number.isFinite(numericAmount)` is
vacuously true on exact rationals, so the only amount check is positivity;
the source is trimmed and truncated to 255 characters; the stored timestamp
`new Date().toISOString()` is the `now` parameter. -/
def incomeCreate (db : Db) (now : String) (amount : ℚ) (source : Option String) :
    Except HttpError (Db × IncomeRow) :=
  if amount ≤ 0 then .error ⟨400, "Amount must be a positive number."⟩
  else
    let trimmedSource := strTake (strTrim (source.getD "")) 255
    let row : IncomeRow := ⟨db.nextIncomeId, amount, trimmedSource, now⟩
    .ok ({ db with income := db.income ++ [row], nextIncomeId := db.nextIncomeId + 1 }, row)

/-- The category resolution block of `POST /api/expense` (`undefined`,
`null` and the empty string mean "no category"). -/
def resolveExpenseCategory (db : Db) (categoryRaw : Option String) :
    Except HttpError (Option Nat) :=
  match categoryRaw with
  | none => .ok none
  | some raw =>
    if raw = "" then .ok none
    else
      match jsParseInt raw with
      | none => .error ⟨400, "Invalid category selection."⟩
      | some v =>
        if v ≤ 0 then .error ⟨400, "Invalid category selection."⟩
        else
          match db.categories.find? (fun cat => (cat.id : Int) = v) with
          | none => .error ⟨400, "Invalid category selection."⟩
          | some cat => .ok (some cat.id)

/-- Model of `POST /api/expense`: positivity is the only amount check; an
optional category must be a positive integer naming one of the user's
categories. -/
def expenseCreate (db : Db) (now : String) (amount : ℚ) (description : Option String)
    (categoryRaw : Option String) : Except HttpError (Db × ExpenseRow) :=
  if amount ≤ 0 then .error ⟨400, "Amount must be a positive number."⟩
  else
    match resolveExpenseCategory db categoryRaw with
    | .error e => .error e
    | .ok catId =>
      let trimmedDescription := strTake (strTrim (description.getD "")) 255
      let row : ExpenseRow := ⟨db.nextExpenseId, catId, amount, trimmedDescription, now⟩
      .ok ({ db with expend := db.expend ++ [row], nextExpenseId := db.nextExpenseId + 1 }, row)

/-- The two-decimals normalisation `Math.round(x * 100) / 100`. -/
def normalize2 (q : ℚ) : ℚ :=
  (jsRound (q * 100) : ℚ) / 100

/-- Model of `POST /api/recurring`: description required and at most 255
characters, amount positive and within `1e-8` of its two-decimal rounding
(the rounded value is what gets stored), category required and existing,
per-user cap of 50 stored templates. -/
def recurringCreate (db : Db) (description : Option String) (defaultAmount : ℚ)
    (categoryRaw : Option String) : Except HttpError (Db × RecRow) :=
  let trimmedDescription := strTrim (description.getD "")
  if trimmedDescription = "" then .error ⟨400, "Description is required."⟩
  else if 255 < trimmedDescription.length then
    .error ⟨400, "Description must be 255 characters or fewer."⟩
  else if defaultAmount ≤ 0 then .error ⟨400, "Amount must be a positive number."⟩
  else
    let normalizedAmount := normalize2 defaultAmount
    if 1 / 100000000 < |normalizedAmount - defaultAmount| then
      .error ⟨400, "Amount must have at most two decimal places."⟩
    else
      match (categoryRaw.bind (fun raw => jsParseInt raw)) with
      | none => .error ⟨400, "A valid category is required."⟩
      | some v =>
        if v ≤ 0 then .error ⟨400, "A valid category is required."⟩
        else
          match db.categories.find? (fun cat => (cat.id : Int) = v) with
          | none => .error ⟨400, "Invalid category selection."⟩
          | some cat =>
            if 50 ≤ db.recurring.length then
              .error ⟨400, "Recurring template limit reached (50)."⟩
            else
              let row : RecRow := ⟨db.nextRecurringId, cat.id, trimmedDescription, normalizedAmount⟩
              .ok ({ db with recurring := db.recurring ++ [row],
                             nextRecurringId := db.nextRecurringId + 1 }, row)

/-- A `categories[]` entry of a template document. -/
structure CatEntry where
  name : String
  budget_type : String
  deriving DecidableEq, Repr

/-- A `recurring[]` entry of a template document. -/
structure RecEntry where
  description : String
  default_amount : ℚ
  category_name : String
  deriving DecidableEq, Repr

/-- A template import document. -/
structure Payload where
  version : String
  categories : List CatEntry
  recurring : List RecEntry
  deriving DecidableEq, Repr

/-- The `inserted`/`skipped` counters of an import response. -/
structure ImportCounts where
  insertedCategories : Nat
  insertedRecurring : Nat
  skippedCategories : Nat
  skippedRecurring : Nat
  deriving DecidableEq, Repr

/-- The fixed budget bucket enumeration. -/
def BUDGET_TYPES : List String := ["Necessities", "Leisure", "Savings"]

/-- Validation and case-insensitive payload-internal dedup of the
`categories[]` entries (`payloadCategoryMap` plus
`skippedCategoryDuplicates` in the source): an ordered association list
`key -> (name, budget_type)`. -/
def buildCatMap : List CatEntry → Nat → List (String × String × String) → Nat →
    Except HttpError (List (String × String × String) × Nat)
  | [], _, acc, skipped => .ok (acc, skipped)
  | item :: rest, idx, acc, skipped =>
    let name := strTrim item.name
    if name = "" ∨ 40 < name.length then
      .error ⟨400, "Category name at index " ++ toString idx ++ " must be 1-40 characters."⟩
    else if (BUDGET_TYPES.contains item.budget_type) = false then
      .error ⟨400, "Invalid budget type for category \"" ++ name ++ "\"."⟩
    else
      let key := strToLower name
      if acc.any (fun e => e.1 = key) then buildCatMap rest (idx + 1) acc (skipped + 1)
      else buildCatMap rest (idx + 1) (acc ++ [(key, name, item.budget_type)]) skipped

/-- A validated, normalised `recurring[]` entry. -/
structure NormRec where
  description : String
  amount : ℚ
  categoryKey : String
  deriving DecidableEq, Repr

/-- The `description|amount.toFixed(2)|suffix` dedupe keys the import uses. -/
def recKey (descLower : String) (amount : ℚ) (suffix : String) : String :=
  descLower ++ "|" ++ qToFixed2 amount ++ "|" ++ suffix

/-- Validation, normalisation and payload-internal dedup of the
`recurring[]` entries (`normalizedRecurring`, `recurringPayloadKeys` and
`recurringDuplicateCount` in the source). -/
def buildRecList : List (String × String × String) → List RecEntry → Nat → List NormRec →
    List String → Nat → Except HttpError (List NormRec × Nat)
  | _, [], _, acc, _, dups => .ok (acc, dups)
  | pcats, item :: rest, idx, acc, seen, dups =>
    let description := strTrim item.description
    let amountValue := item.default_amount
    let categoryName := strTrim item.category_name
    if description = "" then
      .error ⟨400, "Recurring description at index " ++ toString idx ++ " is required."⟩
    else if 255 < description.length then
      .error ⟨400, "Recurring description \"" ++ description ++ "\" is too long (max 255)."⟩
    else if amountValue ≤ 0 then
      .error ⟨400, "Recurring amount for \"" ++ description ++ "\" must be positive."⟩
    else
      let normalizedAmount := normalize2 amountValue
      if 1 / 100000000 < |normalizedAmount - amountValue| then
        .error ⟨400, "Recurring amount for \"" ++ description ++ "\" must have at most two decimals."⟩
      else if categoryName = "" then
        .error ⟨400, "Recurring entry \"" ++ description ++ "\" must reference a category name."⟩
      else
        let categoryKey := strToLower categoryName
        if (pcats.any (fun e => e.1 = categoryKey)) = false then
          .error ⟨400, "Recurring entry \"" ++ description ++ "\" references unknown category \"" ++
            categoryName ++ "\"."⟩
        else
          let dedupeKey := recKey (strToLower description) normalizedAmount categoryKey
          if seen.contains dedupeKey then buildRecList pcats rest (idx + 1) acc seen (dups + 1)
          else
            buildRecList pcats rest (idx + 1) (acc ++ [⟨description, normalizedAmount, categoryKey⟩])
              (seen ++ [dedupeKey]) dups

/-- The `categoryMap` built from the user's stored categories
(`lowercased name -> (id, name)`, later rows overwriting earlier ones as
`Map.set` does). -/
def catMapOf (cats : List Category) : List (String × Nat × String) :=
  cats.foldl (fun m c => assocSet m (strToLower c.name) (c.id, c.name)) []

/-- The dedupe key of a stored recurring row. -/
def rowRecKey (row : RecRow) : String :=
  recKey (strToLower row.description) row.amount (toString row.categoryId)

/-- The category insertion loop of the import transaction. -/
def insertCats : Db → List (String × Nat × String) → List (String × String × String) → Nat →
    Db × List (String × Nat × String) × Nat
  | db, cmap, [], count => (db, cmap, count)
  | db, cmap, (key, name, bt) :: rest, count =>
    let newId := db.nextCategoryId
    let db1 := { db with categories := db.categories ++ [⟨newId, name, bt⟩],
                         nextCategoryId := newId + 1 }
    insertCats db1 (assocSet cmap key (newId, name)) rest (count + 1)

/-- The recurring insertion loop of the import transaction (the `500` branch
models the `Category mapping failed` guard). -/
def insertRecs : Db → List (String × Nat × String) → List String → List NormRec → Nat → Nat →
    Except HttpError (Db × Nat × Nat)
  | db, _, _, [], ins, skip => .ok (db, ins, skip)
  | db, cmap, eset, r :: rest, ins, skip =>
    match lookupA cmap r.categoryKey with
    | none => .error ⟨500, "Category mapping failed for \"" ++ r.categoryKey ++ "\"."⟩
    | some (cid, _) =>
      let key := recKey (strToLower r.description) r.amount (toString cid)
      if eset.contains key then insertRecs db cmap eset rest ins (skip + 1)
      else
        let row : RecRow := ⟨db.nextRecurringId, cid, r.description, r.amount⟩
        insertRecs
          { db with recurring := db.recurring ++ [row],
                    nextRecurringId := db.nextRecurringId + 1 }
          cmap (eset ++ [key]) rest (ins + 1) skip

/-- Model of `POST /api/templates/import` (the revision with the up-front
recurring-cap check): structural checks, payload validation, the two cap
checks, then the insertion transaction; the model is pure, which captures
the `BEGIN TRANSACTION`/`COMMIT`/`ROLLBACK` atomicity. -/
def importTemplates (db : Db) (p : Payload) : Except HttpError (Db × ImportCounts) :=
  if p.version ≠ "1.0" then .error ⟨400, "Unsupported template version."⟩
  else if 100 < p.categories.length then .error ⟨400, "Invalid categories list (max 100)."⟩
  else if 200 < p.recurring.length then .error ⟨400, "Invalid recurring list (max 200)."⟩
  else
    match buildCatMap p.categories 0 [] 0 with
    | .error e => .error e
    | .ok (pcats, skippedCatDups) =>
      match buildRecList pcats p.recurring 0 [] [] 0 with
      | .error e => .error e
      | .ok (nrecs, recDups) =>
        let categoryMap := catMapOf db.categories
        let potentialNew := pcats.filter (fun e => (lookupA categoryMap e.1).isNone)
        if 50 < db.categories.length + potentialNew.length then
          .error ⟨400, "Import would exceed the category limit (50)."⟩
        else
          let existingSet := db.recurring.map rowRecKey
          if 50 < db.recurring.length + nrecs.length then
            .error ⟨400, "Import would exceed the recurring template limit (50)."⟩
          else
            match insertCats db categoryMap potentialNew 0 with
            | (db1, categoryMap1, insCats) =>
              let skippedCategories := skippedCatDups + (pcats.length - potentialNew.length)
              match insertRecs db1 categoryMap1 existingSet nrecs 0 0 with
              | .error e => .error e
              | .ok (db2, insRec, skipRec) =>
                .ok (db2, ⟨insCats, insRec, skippedCategories, recDups + skipRec⟩)

/-- The number of validated, payload-deduped recurring entries of a
payload. -/
def payloadRecurringCount (p : Payload) : Nat :=
  match buildCatMap p.categories 0 [] 0 with
  | .ok (pcats, _) =>
    match buildRecList pcats p.recurring 0 [] [] 0 with
    | .ok (nrecs, _) => nrecs.length
    | .error _ => 0
  | .error _ => 0

/-- Two imports of the same payload in sequence. -/
def importTwice (db : Db) (p : Payload) : Except HttpError (Db × ImportCounts) :=
  match importTemplates db p with
  | .ok (db1, _) => importTemplates db1 p
  | .error e => .error e

/-- The ordering triple of a feed row. -/
def rowTriple (r : FeedRow) : String × Nat × Nat :=
  (r.date, r.typeOrder, r.id)

/-- The type rank of a returned item (income 0, expense 1), as recoverable
from the response's `type` field. -/
def itemRank (it : Item) : Nat :=
  if it.type = "Income" then 0 else 1

/-- The strict before-relation the specification states for returned rows:
newest sorts by timestamp descending, then typeRank ascending, then rowId
descending; oldest flips the timestamp and rowId comparisons but not the
typeRank comparison. -/
def itemBefore (dir : SortDir) (x y : Item) : Prop :=
  match dir with
  | .newest =>
    strLtB y.date x.date = true ∨
      (x.date = y.date ∧
        (itemRank x < itemRank y ∨ (itemRank x = itemRank y ∧ y.id < x.id)))
  | .oldest =>
    strLtB x.date y.date = true ∨
      (x.date = y.date ∧
        (itemRank x < itemRank y ∨ (itemRank x = itemRank y ∧ x.id < y.id)))

/-- Database well-formedness: the auto-increment primary keys are unique
within each source table. -/
def DbWellFormed (db : Db) : Prop :=
  (db.income.map IncomeRow.id).Nodup ∧ (db.expend.map ExpenseRow.id).Nodup

/-! ## General lemmas -/

theorem parseLimit_pos (raw : Option String) : 1 ≤ parseLimit raw 20 50 := by
  rcases raw with _ | s
  · norm_num [parseLimit]
  · rcases h : jsParseInt s with _ | v
    · norm_num [parseLimit, h]
    · simp only [parseLimit, h]
      split <;> omega

theorem parseLimit_le (raw : Option String) : parseLimit raw 20 50 ≤ 50 := by
  rcases raw with _ | s
  · norm_num [parseLimit]
  · rcases h : jsParseInt s with _ | v
    · norm_num [parseLimit, h]
    · simp only [parseLimit, h]
      split <;> omega

theorem fetchTransactions_items_le (db : Db) (limit : Int) (sort : Option String)
    (cursor : Option Json) (tf : Option String) (cf : Option CatFilter)
    (df dt : Option String) (page : Page)
    (h : fetchTransactions db limit sort cursor tf cf df dt = .ok page) :
    page.items.length ≤ (min (max limit 1) 50).toNat := by
  simp only [fetchTransactions] at h
  cases hcc : fetchCursorCond (normalizeSort sort) cursor with
  | error e => rw [hcc] at h; exact absurd h (by simp)
  | ok cc =>
    rw [hcc] at h
    simp only [Except.ok.injEq] at h
    subst h
    simp only [List.length_map]
    split
    · exact List.length_take_le _ _
    · rename_i hlen
      have := List.length_take_le ((min (max limit 1) 50).toNat + 1)
        (queryRows db (normalizeSort sort) tf cf df dt cc)
      omega

theorem fetchTransactions_error_cases (db : Db) (limit : Int) (sort : Option String)
    (cursor : Option Json) (tf : Option String) (cf : Option CatFilter)
    (df dt : Option String) (e : HttpError)
    (h : fetchTransactions db limit sort cursor tf cf df dt = .error e) :
    e = ⟨400, "Invalid cursor."⟩ ∨ e = ⟨500, "Datatype is not supported"⟩ := by
  simp only [fetchTransactions] at h
  cases hcc : fetchCursorCond (normalizeSort sort) cursor with
  | error e2 =>
    rw [hcc] at h
    simp only [Except.error.injEq] at h
    subst h
    unfold fetchCursorCond at hcc
    cases cursor with
    | none => simp at hcc
    | some j =>
      simp only at hcc
      split at hcc
      · split at hcc
        · split at hcc
          · simp at hcc
          · simp only [Except.error.injEq] at hcc
            exact Or.inr hcc.symm
        · simp only [Except.error.injEq] at hcc
          exact Or.inl hcc.symm
      · simp at hcc
  | ok cc => rw [hcc] at h; exact absurd h (by simp)

theorem fetchTransactions_error_limit_independent (db : Db) (sort : Option String)
    (cursor : Option Json) (tf : Option String) (cf : Option CatFilter)
    (df dt : Option String) (l1 l2 : Int) (e : HttpError)
    (h : fetchTransactions db l1 sort cursor tf cf df dt = .error e) :
    fetchTransactions db l2 sort cursor tf cf df dt = .error e := by
  simp only [fetchTransactions] at h ⊢
  cases hcc : fetchCursorCond (normalizeSort sort) cursor with
  | error e2 =>
    rw [hcc] at h
    dsimp only at h
    dsimp only
    exact h
  | ok cc => rw [hcc] at h; exact absurd h (by simp)

theorem fetchCursorCond_invalid (dir : SortDir) (j : Json)
    (ht : jsonTruthy j = true)
    (hbad : jsonIsObjLike j = false ∨ jgetTruthy j "date" = false ∨
      jgetIsNum j "typeOrder" = false ∨ jgetIsNum j "id" = false ∨
      jgetStrEq j "sort" dir.str = false) :
    fetchCursorCond dir (some j) = .error ⟨400, "Invalid cursor."⟩ := by
  unfold fetchCursorCond
  dsimp only
  rw [if_pos ht]
  rw [if_neg (by
    rintro ⟨h1, h2, h3, h4, h5⟩
    rcases hbad with hb | hb | hb | hb | hb
    · rw [h1] at hb; exact Bool.noConfusion hb
    · rw [h2] at hb; exact Bool.noConfusion hb
    · rw [h3] at hb; exact Bool.noConfusion hb
    · rw [h4] at hb; exact Bool.noConfusion hb
    · rw [h5] at hb; exact Bool.noConfusion hb)]

theorem fetchTransactions_invalid_cursor_400 (db : Db) (limit : Int) (sort : Option String)
    (j : Json) (tf : Option String) (cf : Option CatFilter) (df dt : Option String)
    (ht : jsonTruthy j = true)
    (hbad : jsonIsObjLike j = false ∨ jgetTruthy j "date" = false ∨
      jgetIsNum j "typeOrder" = false ∨ jgetIsNum j "id" = false ∨
      jgetStrEq j "sort" (normalizeSort sort).str = false) :
    fetchTransactions db limit sort (some j) tf cf df dt =
      .error ⟨400, "Invalid cursor."⟩ := by
  simp only [fetchTransactions]
  rw [fetchCursorCond_invalid _ _ ht hbad]

theorem normalizeSort_str (dir : SortDir) : normalizeSort (some dir.str) = dir := by
  cases dir <;> rfl

/-- A decodable cursor token whose `date` field is a JSON array passes the
route check and the fetch's field validation, reaches the query with an
unbindable parameter, and surfaces as the driver's HTTP 500 — not as an
invalid-cursor 400. -/
theorem structured_date_cursor_500 :
    transactionsHandler ⟨[], [], [], [], 1, 1, 1, 1⟩
      ⟨none, none,
        some (String.mk (b64Encode (utf8Encode (jsonStringify
          (Json.obj [("sort", Json.str "newest"), ("date", Json.arr [Json.num 1]),
            ("typeOrder", Json.num 0), ("id", Json.num 1)]))))),
        none, none, none, none⟩ =
      .error ⟨500, "Datatype is not supported"⟩ := by decide

/-! ## C10: limit clamping -/

/-- C10. For every `limit` query parameter value, the transactions endpoint
never rejects the request because of the limit and never returns more than 50
items: a non-numeric, zero or negative value yields the default limit of 20
(not a clamp to 1), only values greater than 50 are reduced to 50, and any
error the fetch produces is reproduced verbatim at every other limit value —
the limit is never the cause of a rejection. -/
theorem limit_clamping_spec (raw : Option String) :
    (1 ≤ parseLimit raw 20 50 ∧ parseLimit raw 20 50 ≤ 50) ∧
    (raw = none → parseLimit raw 20 50 = 20) ∧
    (∀ s, raw = some s → jsParseInt s = none → parseLimit raw 20 50 = 20) ∧
    (∀ s v, raw = some s → jsParseInt s = some v → v ≤ 0 → parseLimit raw 20 50 = 20) ∧
    (∀ s v, raw = some s → jsParseInt s = some v → 0 < v → v ≤ 50 → parseLimit raw 20 50 = v) ∧
    (∀ s v, raw = some s → jsParseInt s = some v → 50 < v → parseLimit raw 20 50 = 50) ∧
    (∀ db sort cursor tf cf df dt page,
      fetchTransactions db (parseLimit raw 20 50) sort cursor tf cf df dt = .ok page →
      page.items.length ≤ 50) ∧
    (∀ db sort cursor tf cf df dt (l2 : Int) e,
      fetchTransactions db (parseLimit raw 20 50) sort cursor tf cf df dt = .error e →
      fetchTransactions db l2 sort cursor tf cf df dt = .error e) := by
  refine ⟨⟨parseLimit_pos raw, parseLimit_le raw⟩, ?_, ?_, ?_, ?_, ?_, ?_, ?_⟩
  · rintro rfl; rfl
  · rintro s rfl hn
    simp [parseLimit, hn]
  · rintro s v rfl hv hle
    simp [parseLimit, hv, if_pos hle]
  · rintro s v rfl hv h0 h50
    simp only [parseLimit, hv]
    rw [if_neg (by omega)]
    omega
  · rintro s v rfl hv h50
    simp only [parseLimit, hv]
    rw [if_neg (by omega)]
    omega
  · intro db sort cursor tf cf df dt page h
    have h2 := fetchTransactions_items_le db _ sort cursor tf cf df dt page h
    omega
  · intro db sort cursor tf cf df dt l2 e h
    exact fetchTransactions_error_limit_independent db sort cursor tf cf df dt _ l2 e h

/-- Witness for C10 at concrete inputs. -/
theorem limit_clamping_spec_witness :
    parseLimit (some "abc") 20 50 = 20 ∧ parseLimit (some "0") 20 50 = 20 ∧
    parseLimit (some "-5") 20 50 = 20 ∧ parseLimit (some "1000") 20 50 = 50 ∧
    parseLimit (some "7") 20 50 = 7 := by
  refine ⟨?_, ?_, ?_, ?_, ?_⟩
  · exact (limit_clamping_spec (some "abc")).2.2.1 "abc" rfl (by decide)
  · exact (limit_clamping_spec (some "0")).2.2.2.1 "0" 0 rfl (by decide) (by decide)
  · exact (limit_clamping_spec (some "-5")).2.2.2.1 "-5" (-5) rfl (by decide) (by decide)
  · exact (limit_clamping_spec (some "1000")).2.2.2.2.2.1 "1000" 1000 rfl (by decide) (by decide)
  · exact (limit_clamping_spec (some "7")).2.2.2.2.1 "7" 7 rfl (by decide) (by decide) (by decide)

theorem routeCursor_error (dir : SortDir) (c : Option String) (e : HttpError)
    (h : routeCursor dir c = .error e) : e = ⟨400, "Invalid cursor."⟩ := by
  unfold routeCursor at h
  cases c with
  | none => exact Except.noConfusion h
  | some cs =>
    simp only at h
    cases hd : decodeCursor cs with
    | none => rw [hd] at h; simp only [Except.error.injEq] at h; exact h.symm
    | some j =>
      rw [hd] at h
      dsimp only at h
      split_ifs at h <;>
        first
          | (simp only [Except.error.injEq] at h; exact h.symm)
          | exact Except.noConfusion h

theorem routeType_error (t : Option String) (e : HttpError)
    (h : routeType t = .error e) : e = ⟨400, "Invalid type parameter."⟩ := by
  unfold routeType at h
  cases t with
  | none => exact Except.noConfusion h
  | some raw =>
    simp only at h
    split at h
    · exact Except.noConfusion h
    · split at h
      · exact Except.noConfusion h
      · split at h
        · exact Except.noConfusion h
        · simp only [Except.error.injEq] at h; exact h.symm

theorem routeCategory_error (c : Option String) (e : HttpError)
    (h : routeCategory c = .error e) : e = ⟨400, "Invalid category identifier."⟩ := by
  unfold routeCategory at h
  cases c with
  | none => exact Except.noConfusion h
  | some raw =>
    simp only at h
    split at h
    · exact Except.noConfusion h
    · split at h
      · exact Except.noConfusion h
      · split at h
        · exact Except.noConfusion h
        · split at h
          · simp only [Except.error.injEq] at h; exact h.symm
          · split at h
            · simp only [Except.error.injEq] at h; exact h.symm
            · exact Except.noConfusion h

theorem routeDate_error (b : Bool) (s : Option String) (e : HttpError)
    (h : routeDate b s = .error e) : e.status = 400 := by
  unfold routeDate at h
  cases s with
  | none => exact Except.noConfusion h
  | some raw =>
    simp only at h
    split at h
    · exact Except.noConfusion h
    · split at h
      · exact Except.noConfusion h
      · simp only [Except.error.injEq] at h
        subst h
        rfl

theorem fetchTransactions_cursorless_ok (db : Db) (limit : Int) (sort : Option String)
    (tf : Option String) (cf : Option CatFilter) (df dt : Option String) :
    ∃ page, fetchTransactions db limit sort none tf cf df dt = .ok page := by
  exact ⟨_, rfl⟩

/-! ## C7: income type filter is incompatible with a category filter -/

/-- C7. A request whose `type` filter normalises to `Income` combined with
any category filter (id or `uncategorized`) fails with the 400
incompatible-filters error for every database (so no query is executed);
with any other type filter the category filter is accepted: the handler
reaches the fetch and succeeds on an otherwise plain request. -/
theorem income_category_incompatible :
    (∀ (db : Db) (qp : QueryParams) (cj : Option Json) (cf : CatFilter),
      routeCursor (normalizeSort qp.sort) qp.cursor = .ok cj →
      routeType qp.type = .ok (some "Income") →
      routeCategory qp.category_id = .ok (some cf) →
      transactionsHandler db qp = .error ⟨400, "Category filter only applies to expenses."⟩) ∧
    (∀ (db : Db) (qp : QueryParams) (tf : Option String) (cf : Option CatFilter),
      qp.cursor = none → qp.fromQ = none → qp.toQ = none →
      routeType qp.type = .ok tf → tf ≠ some "Income" →
      routeCategory qp.category_id = .ok cf →
      ∃ page, transactionsHandler db qp = .ok page) := by
  constructor
  · intro db qp cj cf hcur htype hcat
    simp only [transactionsHandler, hcur, htype, hcat, bind, Except.bind, Option.isSome_some,
      and_true, reduceIte, throw, throwThe, MonadExceptOf.throw]
  · intro db qp tf cf hcur hfrom hto htype htf hcat
    simp only [transactionsHandler, hcur, hfrom, hto, htype, hcat, bind, Except.bind,
      routeCursor, routeDate, pure, Except.pure]
    rw [if_neg (by exact fun hc => htf hc.1)]
    exact fetchTransactions_cursorless_ok db _ _ tf cf none none

/-- Witness for C7: `type=income&category_id=3` yields the 400, and
`type=expense&category_id=3` is accepted. -/
theorem income_category_incompatible_witness :
    transactionsHandler ⟨[], [], [], [], 1, 1, 1, 1⟩
      ⟨none, none, none, some "income", some "3", none, none⟩ =
        .error ⟨400, "Category filter only applies to expenses."⟩ ∧
    ∃ page, transactionsHandler ⟨[], [], [], [], 1, 1, 1, 1⟩
      ⟨none, none, none, some "expense", some "3", none, none⟩ = .ok page := by
  constructor
  · exact income_category_incompatible.1 ⟨[], [], [], [], 1, 1, 1, 1⟩
      ⟨none, none, none, some "income", some "3", none, none⟩ none (.byId 3)
      rfl (by decide) (by decide)
  · exact income_category_incompatible.2 ⟨[], [], [], [], 1, 1, 1, 1⟩
      ⟨none, none, none, some "expense", some "3", none, none⟩ (some "Expense")
      (some (.byId 3)) rfl rfl rfl (by decide) (by decide) (by decide)

/-! ## C6: cursor decoding is total and failures are client errors -/

/-- C6. Decoding a cursor token never escapes as an uncaught exception:
every request carrying a cursor token either fails with the explicit 400
`Invalid cursor.` response or proceeds with a decoded, truthy, sort-matching
cursor (conjunct 1); a token that fails to decode — malformed or truncated —
is rejected with that 400 at the route (conjunct 2); so is a decoded token
that is falsy or whose `sort` field differs from the request's normalised
sort order (conjunct 3); and a truthy cursor missing a required field — not
object-like, no truthy `date`, or non-numeric `typeOrder` or `id` — is
rejected with the same 400 `Invalid cursor.` by the fetch's validation
before any query runs, for every database, limit and filter combination
(conjunct 4), in particular by the full handler (conjunct 5). -/
theorem cursor_decode_totality (db : Db) (qp : QueryParams) :
    (∀ tok, qp.cursor = some tok →
      transactionsHandler db qp = .error ⟨400, "Invalid cursor."⟩ ∨
      ∃ j, decodeCursor tok = some j ∧ jsonTruthy j = true ∧
        jgetStrEq j "sort" (normalizeSort qp.sort).str = true) ∧
    (∀ tok, qp.cursor = some tok → decodeCursor tok = none →
      transactionsHandler db qp = .error ⟨400, "Invalid cursor."⟩) ∧
    (∀ tok j, qp.cursor = some tok → decodeCursor tok = some j →
      (jsonTruthy j = false ∨ jgetStrEq j "sort" (normalizeSort qp.sort).str = false) →
      transactionsHandler db qp = .error ⟨400, "Invalid cursor."⟩) ∧
    (∀ (db2 : Db) (limit : Int) (srt : Option String) (j : Json) (tf : Option String)
        (cf : Option CatFilter) (df dt : Option String),
      jsonTruthy j = true →
      (jsonIsObjLike j = false ∨ jgetTruthy j "date" = false ∨
        jgetIsNum j "typeOrder" = false ∨ jgetIsNum j "id" = false) →
      fetchTransactions db2 limit srt (some j) tf cf df dt =
        .error ⟨400, "Invalid cursor."⟩) ∧
    (∀ tok j, qp.cursor = some tok → qp.type = none → qp.category_id = none →
      qp.fromQ = none → qp.toQ = none →
      decodeCursor tok = some j → jsonTruthy j = true →
      jgetStrEq j "sort" (normalizeSort qp.sort).str = true →
      (jsonIsObjLike j = false ∨ jgetTruthy j "date" = false ∨
        jgetIsNum j "typeOrder" = false ∨ jgetIsNum j "id" = false) →
      transactionsHandler db qp = .error ⟨400, "Invalid cursor."⟩) := by
  have hroute2 : ∀ tok, qp.cursor = some tok → decodeCursor tok = none →
      transactionsHandler db qp = .error ⟨400, "Invalid cursor."⟩ := by
    intro tok hqc hdec
    have hcur : routeCursor (normalizeSort qp.sort) qp.cursor = .error ⟨400, "Invalid cursor."⟩ := by
      rw [hqc]; unfold routeCursor; dsimp only; rw [hdec]
    simp only [transactionsHandler, hcur, bind, Except.bind]
  have hroute3 : ∀ tok j, qp.cursor = some tok → decodeCursor tok = some j →
      (jsonTruthy j = false ∨ jgetStrEq j "sort" (normalizeSort qp.sort).str = false) →
      transactionsHandler db qp = .error ⟨400, "Invalid cursor."⟩ := by
    intro tok j hqc hdec hbad
    have hcur : routeCursor (normalizeSort qp.sort) qp.cursor = .error ⟨400, "Invalid cursor."⟩ := by
      rw [hqc]; unfold routeCursor; dsimp only; rw [hdec]
      dsimp only
      by_cases ht : jsonTruthy j = false
      · rw [if_pos ht]
      · rw [if_neg ht]
        rcases hbad with hb | hb
        · exact absurd hb ht
        · rw [if_pos hb]
    simp only [transactionsHandler, hcur, bind, Except.bind]
  refine ⟨?_, hroute2, hroute3, ?_, ?_⟩
  · intro tok hqc
    cases hdec : decodeCursor tok with
    | none => exact Or.inl (hroute2 tok hqc hdec)
    | some j =>
      cases ht : jsonTruthy j with
      | false => exact Or.inl (hroute3 tok j hqc hdec (Or.inl ht))
      | true =>
        cases hs : jgetStrEq j "sort" (normalizeSort qp.sort).str with
        | false => exact Or.inl (hroute3 tok j hqc hdec (Or.inr hs))
        | true => exact Or.inr ⟨j, rfl, ht, hs⟩
  · intro db2 limit srt j tf cf df dt ht hbad
    refine fetchTransactions_invalid_cursor_400 db2 limit srt j tf cf df dt ht ?_
    rcases hbad with hb | hb | hb | hb
    · exact Or.inl hb
    · exact Or.inr (Or.inl hb)
    · exact Or.inr (Or.inr (Or.inl hb))
    · exact Or.inr (Or.inr (Or.inr (Or.inl hb)))
  · intro tok j hqc htype hcat hfrom hto hdec htruthy hsort hbad
    have hcur : routeCursor (normalizeSort qp.sort) qp.cursor = .ok (some j) := by
      rw [hqc]; unfold routeCursor; dsimp only; rw [hdec]
      dsimp only
      rw [if_neg (by rw [htruthy]; exact fun hc => Bool.noConfusion hc),
        if_neg (by rw [hsort]; exact fun hc => Bool.noConfusion hc)]
    simp only [transactionsHandler, hcur, htype, hcat, hfrom, hto, bind, Except.bind,
      routeType, routeCategory, routeDate, pure, Except.pure]
    rw [if_neg (by rintro ⟨hc, -⟩; exact Option.noConfusion hc)]
    refine fetchTransactions_invalid_cursor_400 db _ _ j none none none none htruthy ?_
    rcases hbad with hb | hb | hb | hb
    · exact Or.inl hb
    · exact Or.inr (Or.inl hb)
    · exact Or.inr (Or.inr (Or.inl hb))
    · exact Or.inr (Or.inr (Or.inr (Or.inl hb)))

/-- Witness for C6: a garbage token (conjunct 2), a sort-mismatched token
(conjunct 3), and a decoded sort-matching token missing its `date` field
(conjunct 5), each rejected with the explicit 400. -/
theorem cursor_decode_totality_witness :
    transactionsHandler ⟨[], [], [], [], 1, 1, 1, 1⟩
      ⟨none, none, some "%%%not-base64%%%", none, none, none, none⟩ =
        .error ⟨400, "Invalid cursor."⟩ ∧
    transactionsHandler ⟨[], [], [], [], 1, 1, 1, 1⟩
      ⟨none, some "oldest", some (encodeCursor ⟨"newest", "d", 0, 2⟩), none, none,
        none, none⟩ =
        .error ⟨400, "Invalid cursor."⟩ ∧
    transactionsHandler ⟨[], [], [], [], 1, 1, 1, 1⟩
      ⟨none, none,
        some (String.mk (b64Encode (utf8Encode (jsonStringify
          (Json.obj [("sort", Json.str "newest")]))))), none, none, none, none⟩ =
        .error ⟨400, "Invalid cursor."⟩ := by
  refine ⟨?_, ?_, ?_⟩
  · exact (cursor_decode_totality ⟨[], [], [], [], 1, 1, 1, 1⟩
      ⟨none, none, some "%%%not-base64%%%", none, none, none, none⟩).2.1
      "%%%not-base64%%%" rfl rfl
  · exact (cursor_decode_totality ⟨[], [], [], [], 1, 1, 1, 1⟩
      ⟨none, some "oldest", some (encodeCursor ⟨"newest", "d", 0, 2⟩), none, none,
        none, none⟩).2.2.1
      (encodeCursor ⟨"newest", "d", 0, 2⟩)
      (cursorToJson ⟨"newest", "d", 0, 2⟩) rfl rfl (by decide)
  · exact (cursor_decode_totality ⟨[], [], [], [], 1, 1, 1, 1⟩
      ⟨none, none,
        some (String.mk (b64Encode (utf8Encode (jsonStringify
          (Json.obj [("sort", Json.str "newest")]))))), none, none, none, none⟩).2.2.2.2
      (String.mk (b64Encode (utf8Encode (jsonStringify
        (Json.obj [("sort", Json.str "newest")])))))
      (Json.obj [("sort", Json.str "newest")])
      rfl rfl rfl rfl rfl rfl (by decide) (by decide)
      (Or.inr (Or.inl (by decide)))

/-! ## C4: lookahead pagination -/

/-- C4. For every page request the engine fetches `clampedLimit + 1` rows
matching the filters (the take of the ordered filtered result set); if
`clampedLimit + 1` rows come back, exactly the first `clampedLimit` rows are
returned as items and the `(limit+1)`-th row's triple is encoded as
`nextCursor`; if fewer come back, all of them are returned and `nextCursor`
is null. -/
theorem lookahead_pagination (db : Db) (limit : Int) (sort : Option String)
    (cursor : Option Json) (tf : Option String) (cf : Option CatFilter)
    (df dt : Option String) (page : Page) (cc : Option (SqlV × Int × Int))
    (hcc : fetchCursorCond (normalizeSort sort) cursor = .ok cc)
    (h : fetchTransactions db limit sort cursor tf cf df dt = .ok page) :
    (((queryRows db (normalizeSort sort) tf cf df dt cc).take
        ((min (max limit 1) 50).toNat + 1)).length = (min (max limit 1) 50).toNat + 1 →
      page.items =
        (((queryRows db (normalizeSort sort) tf cf df dt cc).take
            ((min (max limit 1) 50).toNat + 1)).take (min (max limit 1) 50).toNat).map toDTO ∧
      (∃ r, ((queryRows db (normalizeSort sort) tf cf df dt cc).take
          ((min (max limit 1) 50).toNat + 1))[(min (max limit 1) 50).toNat]? = some r ∧
        page.nextCursor = some (encodeCursor
          ⟨(normalizeSort sort).str, r.date, (r.typeOrder : Int), (r.id : Int)⟩))) ∧
    (((queryRows db (normalizeSort sort) tf cf df dt cc).take
        ((min (max limit 1) 50).toNat + 1)).length < (min (max limit 1) 50).toNat + 1 →
      page.items =
        ((queryRows db (normalizeSort sort) tf cf df dt cc).take
          ((min (max limit 1) 50).toNat + 1)).map toDTO ∧
      page.nextCursor = none) := by
  simp only [fetchTransactions, hcc] at h
  simp only [Except.ok.injEq] at h
  subst h
  constructor
  · intro hlen
    have hlt : (min (max limit 1) 50).toNat <
        ((queryRows db (normalizeSort sort) tf cf df dt cc).take
          ((min (max limit 1) 50).toNat + 1)).length := by omega
    constructor
    · simp only [if_pos hlt]
    · have hr := List.getElem?_eq_getElem hlt
      refine ⟨_, hr, ?_⟩
      simp only [if_pos hlt, hr]
      rfl
  · intro hlen
    have hge : ¬ ((min (max limit 1) 50).toNat <
        ((queryRows db (normalizeSort sort) tf cf df dt cc).take
          ((min (max limit 1) 50).toNat + 1)).length) := by omega
    exact ⟨by simp only [if_neg hge], by simp only [if_neg hge]⟩

/-- Witness for C4: two income rows, limit 1 — one item comes back and the
lookahead row's triple is the cursor. -/
theorem lookahead_pagination_witness :
    ∃ page r,
      fetchTransactions
        ⟨[⟨1, 10, "a", "2025-01-02T00:00:00.000Z"⟩, ⟨2, 20, "b", "2025-01-01T00:00:00.000Z"⟩],
          [], [], [], 3, 1, 1, 1⟩ 1 none none none none none none = .ok page ∧
      ((queryRows
        ⟨[⟨1, 10, "a", "2025-01-02T00:00:00.000Z"⟩, ⟨2, 20, "b", "2025-01-01T00:00:00.000Z"⟩],
          [], [], [], 3, 1, 1, 1⟩ .newest none none none none none).take 2)[1]? = some r ∧
      page.items = (((queryRows
        ⟨[⟨1, 10, "a", "2025-01-02T00:00:00.000Z"⟩, ⟨2, 20, "b", "2025-01-01T00:00:00.000Z"⟩],
          [], [], [], 3, 1, 1, 1⟩ .newest none none none none none).take 2).take 1).map toDTO ∧
      page.nextCursor = some (encodeCursor
        ⟨SortDir.newest.str, r.date, (r.typeOrder : Int), (r.id : Int)⟩) := by
  have h := lookahead_pagination
    ⟨[⟨1, 10, "a", "2025-01-02T00:00:00.000Z"⟩, ⟨2, 20, "b", "2025-01-01T00:00:00.000Z"⟩],
      [], [], [], 3, 1, 1, 1⟩ 1 none none none none none none
    ⟨[toDTO (incomeFeedRow ⟨1, 10, "a", "2025-01-02T00:00:00.000Z"⟩)],
      some (encodeCursor ⟨"newest", "2025-01-01T00:00:00.000Z", 0, 2⟩)⟩ none rfl (by decide)
  obtain ⟨hfull, _⟩ := h
  obtain ⟨hitems, r, hr, hcur⟩ := hfull (by decide)
  exact ⟨_, r, by decide, hr, hitems, hcur⟩

/-! ## C1: page concatenation loses the lookahead row (code bug) -/

/-- C1 (bug evidence). With two income rows and `limit=1`, the first page
returns only row 1 together with a `nextCursor` that encodes the
never-returned lookahead row 2; fetching with that cursor returns an empty
page with a null `nextCursor`. The full filtered ordered result set is
`[row 1, row 2]`, so concatenating all pages loses row 2: the engine encodes
the `(limit+1)`-th (lookahead) row's own triple as the cursor and the cursor
boundary is exclusive, which skips that row forever. -/
theorem pagination_drops_lookahead_row :
    transactionsHandler
      ⟨[⟨1, 10, "a", "2025-01-02T00:00:00.000Z"⟩, ⟨2, 20, "b", "2025-01-01T00:00:00.000Z"⟩],
        [], [], [], 3, 1, 1, 1⟩
      ⟨some "1", none, none, none, none, none, none⟩ =
      .ok ⟨[toDTO (incomeFeedRow ⟨1, 10, "a", "2025-01-02T00:00:00.000Z"⟩)],
        some (encodeCursor ⟨"newest", "2025-01-01T00:00:00.000Z", 0, 2⟩)⟩ ∧
    transactionsHandler
      ⟨[⟨1, 10, "a", "2025-01-02T00:00:00.000Z"⟩, ⟨2, 20, "b", "2025-01-01T00:00:00.000Z"⟩],
        [], [], [], 3, 1, 1, 1⟩
      ⟨some "1", none, some (encodeCursor ⟨"newest", "2025-01-01T00:00:00.000Z", 0, 2⟩),
        none, none, none, none⟩ =
      .ok ⟨[], none⟩ ∧
    (queryRows
      ⟨[⟨1, 10, "a", "2025-01-02T00:00:00.000Z"⟩, ⟨2, 20, "b", "2025-01-01T00:00:00.000Z"⟩],
        [], [], [], 3, 1, 1, 1⟩ .newest none none none none none).map FeedRow.id = [1, 2] := by
  decide

/-! ## Order lemmas for the feed comparator -/

theorem charToNat_inj {a b : Char} (h : a.toNat = b.toNat) : a = b := by
  apply Char.eq_of_val_eq
  apply UInt32.eq_of_toBitVec_eq
  have ha : a.val.toBitVec.toNat = b.val.toBitVec.toNat := h
  exact BitVec.eq_of_toNat_eq ha

theorem charListLt_irrefl : ∀ l, charListLt l l = false
  | [] => rfl
  | c :: cs => by
    simp only [charListLt, lt_irrefl, if_false, if_pos rfl]
    exact charListLt_irrefl cs

theorem charListLt_trans :
    ∀ {a b c : List Char}, charListLt a b = true → charListLt b c = true →
      charListLt a c = true := by
  intro a
  induction a with
  | nil =>
    intro b c hab hbc
    cases b with
    | nil => simp [charListLt] at hab
    | cons y ys =>
      cases c with
      | nil => simp [charListLt] at hbc
      | cons z zs => rfl
  | cons x xs ih =>
    intro b c hab hbc
    cases b with
    | nil => simp [charListLt] at hab
    | cons y ys =>
      cases c with
      | nil => simp [charListLt] at hbc
      | cons z zs =>
        simp only [charListLt] at hab hbc ⊢
        split_ifs at hab hbc ⊢ with h1 h2 h3 h4 h5 h6 <;>
          first
            | rfl
            | omega
            | exact ih hab hbc
            | simp_all

theorem charListLt_conn :
    ∀ {a b : List Char}, charListLt a b = false → charListLt b a = false → a = b := by
  intro a
  induction a with
  | nil =>
    intro b hab _
    cases b with
    | nil => rfl
    | cons y ys => simp [charListLt] at hab
  | cons x xs ih =>
    intro b hab hba
    cases b with
    | nil => simp [charListLt] at hba
    | cons y ys =>
      simp only [charListLt] at hab hba
      split_ifs at hab hba with h1 h2 h3 h4 <;> first
        | omega
        | simp_all
        | (have hx : x = y := charToNat_inj (by omega)
           have := ih hab hba
           simp_all)

theorem strLtB_irrefl (s : String) : strLtB s s = false :=
  charListLt_irrefl s.data

theorem strLtB_trans {a b c : String} (h1 : strLtB a b = true) (h2 : strLtB b c = true) :
    strLtB a c = true :=
  charListLt_trans h1 h2

theorem strLtB_conn {a b : String} (h1 : strLtB a b = false) (h2 : strLtB b a = false) :
    a = b := by
  cases a with
  | mk da =>
    cases b with
    | mk db =>
      exact congrArg String.mk (charListLt_conn h1 h2)

theorem strLtB_asymm {a b : String} (h : strLtB a b = true) : strLtB b a = false := by
  by_contra hc
  have h2 : strLtB b a = true := by
    cases hv : strLtB b a
    · exact absurd hv hc
    · rfl
  have := strLtB_trans h h2
  rw [strLtB_irrefl] at this
  exact Bool.noConfusion this

theorem feedLe_total (dir : SortDir) (a b : FeedRow) :
    feedLe dir a b = true ∨ feedLe dir b a = true := by
  cases dir <;>
    · simp only [feedLe]
      by_cases hd : a.date = b.date
      · rw [if_pos hd, if_pos hd.symm]
        by_cases ht : a.typeOrder = b.typeOrder
        · rw [if_pos ht, if_pos ht.symm]
          simp only [decide_eq_true_eq]
          omega
        · rw [if_neg ht, if_neg (fun hc => ht hc.symm)]
          simp only [decide_eq_true_eq]
          omega
      · rw [if_neg hd, if_neg (fun hc => hd hc.symm)]
        cases h1 : strLtB b.date a.date
        · cases h2 : strLtB a.date b.date
          · exact absurd (strLtB_conn h2 h1) hd
          · simp_all
        · simp_all

theorem feedLe_trans (dir : SortDir) {a b c : FeedRow}
    (h1 : feedLe dir a b = true) (h2 : feedLe dir b c = true) :
    feedLe dir a c = true := by
  cases dir <;>
    · simp only [feedLe] at h1 h2 ⊢
      by_cases hab : a.date = b.date <;> by_cases hbc : b.date = c.date
      · rw [if_pos hab] at h1
        rw [if_pos hbc] at h2
        rw [if_pos (hab.trans hbc)]
        by_cases tab : a.typeOrder = b.typeOrder <;> by_cases tbc : b.typeOrder = c.typeOrder
        · rw [if_pos tab] at h1
          rw [if_pos tbc] at h2
          rw [if_pos (tab.trans tbc)]
          simp only [decide_eq_true_eq] at h1 h2 ⊢
          omega
        · rw [if_pos tab] at h1
          rw [if_neg tbc] at h2
          rw [if_neg (fun hc => tbc (tab ▸ hc))]
          simp only [decide_eq_true_eq] at h2 ⊢
          omega
        · rw [if_neg tab] at h1
          rw [if_pos tbc] at h2
          rw [if_neg (fun hc => tab (hc.trans tbc.symm))]
          simp only [decide_eq_true_eq] at h1 ⊢
          omega
        · rw [if_neg tab] at h1
          rw [if_neg tbc] at h2
          simp only [decide_eq_true_eq] at h1 h2
          rw [if_neg (by omega)]
          simp only [decide_eq_true_eq]
          omega
      · rw [if_pos hab] at h1
        rw [if_neg hbc] at h2
        rw [if_neg (fun hc => hbc (hab ▸ hc)), hab]
        exact h2
      · rw [if_neg hab] at h1
        rw [if_pos hbc] at h2
        rw [if_neg (fun hc => hab (hc.trans hbc.symm)), ← hbc]
        exact h1
      · rw [if_neg hab] at h1
        rw [if_neg hbc] at h2
        by_cases hac : a.date = c.date
        · exfalso
          rw [hac] at h1
          first
            | (have h3 := strLtB_trans h2 h1
               rw [strLtB_irrefl] at h3
               exact Bool.noConfusion h3)
            | (have h3 := strLtB_trans h1 h2
               rw [strLtB_irrefl] at h3
               exact Bool.noConfusion h3)
        · rw [if_neg hac]
          first
            | exact strLtB_trans h2 h1
            | exact strLtB_trans h1 h2

/-! ## Result-set structure lemmas -/

theorem queryRows_sorted (db : Db) (dir : SortDir) (tf : Option String)
    (cf : Option CatFilter) (df dt : Option String) (cc : Option (SqlV × Int × Int)) :
    (queryRows db dir tf cf df dt cc).Pairwise (FeedRel dir) := by
  haveI : IsTotal FeedRow (FeedRel dir) := ⟨fun a b => feedLe_total dir a b⟩
  haveI : IsTrans FeedRow (FeedRel dir) := ⟨fun _ _ _ h1 h2 => feedLe_trans dir h1 h2⟩
  exact List.sorted_insertionSort _ _

theorem queryRows_perm (db : Db) (dir : SortDir) (tf : Option String)
    (cf : Option CatFilter) (df dt : Option String) (cc : Option (SqlV × Int × Int)) :
    List.Perm (queryRows db dir tf cf df dt cc)
      ((unionRows db).filter
        (fun r =>
          matchesFilters tf cf df dt r &&
            (match cc with
             | none => true
             | some (cdate, ctype, cid) => cursorCond dir cdate ctype cid r))) :=
  List.perm_insertionSort _ _

theorem queryRows_mem {db : Db} {dir : SortDir} {tf : Option String}
    {cf : Option CatFilter} {df dt : Option String} {cc : Option (SqlV × Int × Int)}
    {r : FeedRow} (h : r ∈ queryRows db dir tf cf df dt cc) :
    r ∈ unionRows db ∧
      matchesFilters tf cf df dt r = true ∧
      (∀ cdate ctype cid, cc = some (cdate, ctype, cid) →
        cursorCond dir cdate ctype cid r = true) := by
  have h2 := (queryRows_perm db dir tf cf df dt cc).mem_iff.mp h
  have h3 := List.mem_filter.mp h2
  refine ⟨h3.1, ?_, ?_⟩
  · have h4 := h3.2
    simp only [Bool.and_eq_true] at h4
    exact h4.1
  · intro cdate ctype cid hcc
    have h4 := h3.2
    rw [hcc] at h4
    simp only [Bool.and_eq_true] at h4
    exact h4.2

theorem unionRows_typeOrder {db : Db} {r : FeedRow} (h : r ∈ unionRows db) :
    (r.typeOrder = 0 ∧ r.type = "Income") ∨ (r.typeOrder = 1 ∧ r.type = "Expense") := by
  unfold unionRows at h
  rcases List.mem_append.mp h with h1 | h1
  · obtain ⟨x, _, rfl⟩ := List.mem_map.mp h1
    exact Or.inl ⟨rfl, rfl⟩
  · obtain ⟨x, _, rfl⟩ := List.mem_map.mp h1
    exact Or.inr ⟨rfl, rfl⟩

theorem unionRows_triple_nodup {db : Db} (hwf : DbWellFormed db) :
    ((unionRows db).map rowTriple).Nodup := by
  unfold unionRows
  rw [List.map_append]
  rw [List.nodup_append]
  refine ⟨?_, ?_, ?_⟩
  · apply List.Nodup.of_map (fun t : String × Nat × Nat => t.2.2)
    have he : ((db.income.map incomeFeedRow).map rowTriple).map
        (fun t : String × Nat × Nat => t.2.2) = db.income.map IncomeRow.id := by
      simp [List.map_map, Function.comp_def, incomeFeedRow, rowTriple]
    rw [he]
    exact hwf.1
  · apply List.Nodup.of_map (fun t : String × Nat × Nat => t.2.2)
    have he : ((db.expend.map (expenseFeedRow db)).map rowTriple).map
        (fun t : String × Nat × Nat => t.2.2) = db.expend.map ExpenseRow.id := by
      simp [List.map_map, Function.comp_def, expenseFeedRow, rowTriple]
    rw [he]
    exact hwf.2
  · intro t h1 h2
    simp only [List.map_map, List.mem_map, Function.comp_def] at h1 h2
    obtain ⟨x, _, rfl⟩ := h1
    obtain ⟨y, _, hy⟩ := h2
    have h0 : (1 : Nat) = 0 :=
      congrArg (fun t : String × Nat × Nat => t.2.1) hy
    exact Nat.noConfusion h0

theorem queryRows_triple_nodup {db : Db} (dir : SortDir) (tf : Option String)
    (cf : Option CatFilter) (df dt : Option String) (cc : Option (SqlV × Int × Int))
    (hwf : DbWellFormed db) :
    ((queryRows db dir tf cf df dt cc).map rowTriple).Nodup := by
  have hperm := (queryRows_perm db dir tf cf df dt cc).map rowTriple
  apply hperm.symm.nodup
  exact List.Nodup.sublist ((List.filter_sublist _).map rowTriple)
    (unionRows_triple_nodup hwf)

theorem queryRows_mem_union {db : Db} {dir : SortDir} {tf : Option String}
    {cf : Option CatFilter} {df dt : Option String} {cc : Option (SqlV × Int × Int)}
    {r : FeedRow} (h : r ∈ queryRows db dir tf cf df dt cc) : r ∈ unionRows db :=
  (queryRows_mem h).1

/-- The items of a successful fetch are the DTO image of a sublist of the
ordered filtered result set. -/
theorem fetch_items_sublist (db : Db) (limit : Int) (sort : Option String)
    (cursor : Option Json) (tf : Option String) (cf : Option CatFilter)
    (df dt : Option String) (page : Page) (cc : Option (SqlV × Int × Int))
    (hcc : fetchCursorCond (normalizeSort sort) cursor = .ok cc)
    (h : fetchTransactions db limit sort cursor tf cf df dt = .ok page) :
    ∃ l, List.Sublist l (queryRows db (normalizeSort sort) tf cf df dt cc) ∧
      page.items = l.map toDTO := by
  simp only [fetchTransactions, hcc] at h
  simp only [Except.ok.injEq] at h
  subst h
  split
  · exact ⟨_, (List.take_sublist _ _).trans (List.take_sublist _ _), rfl⟩
  · exact ⟨_, List.take_sublist _ _, rfl⟩

/-- From the comparator plus distinct triples and union membership, the
claim-level strict order between the mapped DTOs. -/
theorem feedLe_strict_item {dir : SortDir} {a b : FeedRow}
    (hle : FeedRel dir a b) (hne : rowTriple a ≠ rowTriple b)
    (ha : (a.typeOrder = 0 ∧ a.type = "Income") ∨ (a.typeOrder = 1 ∧ a.type = "Expense"))
    (hb : (b.typeOrder = 0 ∧ b.type = "Income") ∨ (b.typeOrder = 1 ∧ b.type = "Expense")) :
    itemBefore dir (toDTO a) (toDTO b) := by
  have hrka : itemRank (toDTO a) = a.typeOrder := by
    rcases ha with ⟨h1, h2⟩ | ⟨h1, h2⟩ <;> simp [itemRank, toDTO, h1, h2]
  have hrkb : itemRank (toDTO b) = b.typeOrder := by
    rcases hb with ⟨h1, h2⟩ | ⟨h1, h2⟩ <;> simp [itemRank, toDTO, h1, h2]
  unfold FeedRel at hle
  cases dir with
  | newest =>
    simp only [feedLe] at hle
    by_cases hd : a.date = b.date
    · rw [if_pos hd] at hle
      by_cases ht : a.typeOrder = b.typeOrder
      · rw [if_pos ht] at hle
        simp only [decide_eq_true_eq] at hle
        have hid : a.id ≠ b.id := fun hc => hne (by simp [rowTriple, hd, ht, hc])
        exact Or.inr ⟨hd, Or.inr ⟨by rw [hrka, hrkb, ht], by
          show b.id < a.id
          omega⟩⟩
      · rw [if_neg ht] at hle
        simp only [decide_eq_true_eq] at hle
        exact Or.inr ⟨hd, Or.inl (by rw [hrka, hrkb]; exact hle)⟩
    · rw [if_neg hd] at hle
      exact Or.inl hle
  | oldest =>
    simp only [feedLe] at hle
    by_cases hd : a.date = b.date
    · rw [if_pos hd] at hle
      by_cases ht : a.typeOrder = b.typeOrder
      · rw [if_pos ht] at hle
        simp only [decide_eq_true_eq] at hle
        have hid : a.id ≠ b.id := fun hc => hne (by simp [rowTriple, hd, ht, hc])
        exact Or.inr ⟨hd, Or.inr ⟨by rw [hrka, hrkb, ht], by
          show a.id < b.id
          omega⟩⟩
      · rw [if_neg ht] at hle
        simp only [decide_eq_true_eq] at hle
        exact Or.inr ⟨hd, Or.inl (by rw [hrka, hrkb]; exact hle)⟩
    · rw [if_neg hd] at hle
      exact Or.inl hle

/-! ## C2: total ordering of returned rows -/

/-- C2. Every page's items are strictly ordered by the stated triple order
(timestamp descending, typeRank ascending, rowId descending under `newest`;
timestamp ascending, typeRank ascending, rowId ascending under `oldest`),
and in particular an income item and an expense item sharing the identical
timestamp always list the income item first, under both sort directions. -/
theorem feed_ordering (db : Db) (limit : Int) (sortParam : Option String)
    (cursor : Option Json) (tf : Option String) (cf : Option CatFilter)
    (df dt : Option String) (page : Page)
    (hwf : DbWellFormed db)
    (h : fetchTransactions db limit sortParam cursor tf cf df dt = .ok page) :
    page.items.Pairwise (itemBefore (normalizeSort sortParam)) ∧
    (∀ i j (hi : i < page.items.length) (hj : j < page.items.length),
      (page.items.get ⟨i, hi⟩).type = "Income" → (page.items.get ⟨j, hj⟩).type = "Expense" →
      (page.items.get ⟨i, hi⟩).date = (page.items.get ⟨j, hj⟩).date → i < j) := by
  have hccex : ∃ cc, fetchCursorCond (normalizeSort sortParam) cursor = .ok cc := by
    cases hcc : fetchCursorCond (normalizeSort sortParam) cursor with
    | error e =>
      exfalso
      simp only [fetchTransactions, hcc] at h
      exact Except.noConfusion h
    | ok cc => exact ⟨cc, rfl⟩
  obtain ⟨cc, hcc⟩ := hccex
  obtain ⟨l, hsub, hitems⟩ :=
    fetch_items_sublist db limit sortParam cursor tf cf df dt page cc hcc h
  have hp1 := queryRows_sorted db (normalizeSort sortParam) tf cf df dt cc
  have hp2 : (queryRows db (normalizeSort sortParam) tf cf df dt cc).Pairwise
      (fun a b => rowTriple a ≠ rowTriple b) :=
    List.pairwise_map.mp (queryRows_triple_nodup _ tf cf df dt cc hwf)
  have hcomb := hp1.and hp2
  have hpair : page.items.Pairwise (itemBefore (normalizeSort sortParam)) := by
    rw [hitems, List.pairwise_map]
    apply ((hcomb.sublist hsub).imp_of_mem)
    intro a b hma hmb hab
    exact feedLe_strict_item hab.1 hab.2
      (unionRows_typeOrder (queryRows_mem_union (hsub.mem hma)))
      (unionRows_typeOrder (queryRows_mem_union (hsub.mem hmb)))
  refine ⟨hpair, ?_⟩
  intro i j hi hj htypei htypej hdate
  simp only [List.get_eq_getElem] at htypei htypej hdate
  rcases Nat.lt_trichotomy i j with hlt | heq | hgt
  · exact hlt
  · exfalso
    subst heq
    rw [htypei] at htypej
    exact absurd htypej (by decide)
  · exfalso
    have hb := List.pairwise_iff_getElem.mp hpair j i hj hi hgt
    cases hdir : normalizeSort sortParam <;>
      rw [hdir] at hb <;>
      · simp only [itemBefore] at hb
        rcases hb with hb | ⟨hbd, hb⟩
        · rw [hdate] at hb
          rw [strLtB_irrefl] at hb
          exact Bool.noConfusion hb
        · simp [itemRank, htypei, htypej] at hb

/-- Witness for C2 (the specification's Scenario A): one income and one
expense on the same day, `limit=20, sort=newest` — both returned, income
listed first, and the page is pairwise-ordered. -/
theorem feed_ordering_witness :
    ∃ page, fetchTransactions
      ⟨[⟨1, 1000, "salary", "2025-01-05T00:00:00.000Z"⟩],
        [⟨1, none, 50, "groceries", "2025-01-05T00:00:00.000Z"⟩],
        [], [], 2, 2, 1, 1⟩ 20 none none none none none none = .ok page ∧
      page.items.Pairwise (itemBefore .newest) ∧
      page.items.map Item.type = ["Income", "Expense"] := by
  have hfe : fetchTransactions
      ⟨[⟨1, 1000, "salary", "2025-01-05T00:00:00.000Z"⟩],
        [⟨1, none, 50, "groceries", "2025-01-05T00:00:00.000Z"⟩],
        [], [], 2, 2, 1, 1⟩ 20 none none none none none none =
      .ok ⟨[toDTO (incomeFeedRow ⟨1, 1000, "salary", "2025-01-05T00:00:00.000Z"⟩),
            toDTO (expenseFeedRow
              ⟨[⟨1, 1000, "salary", "2025-01-05T00:00:00.000Z"⟩],
                [⟨1, none, 50, "groceries", "2025-01-05T00:00:00.000Z"⟩],
                [], [], 2, 2, 1, 1⟩
              ⟨1, none, 50, "groceries", "2025-01-05T00:00:00.000Z"⟩)], none⟩ := by
    decide
  refine ⟨_, hfe, ?_, by decide⟩
  exact (feed_ordering _ 20 none none none none none none _ ⟨by decide, by decide⟩ hfe).1

/-! ## C3: the cursor boundary is exclusive -/

/-- C3. For every valid cursor (one carrying the request's sort direction
and a non-empty date), no row returned on the page fetched with that cursor
has a triple equal to the cursor's triple, under either sort direction. -/
theorem cursor_boundary_exclusive (db : Db) (limit : Int) (sortParam : Option String)
    (tf : Option String) (cf : Option CatFilter) (df dt : Option String)
    (srt d : String) (t i : Int) (page : Page)
    (hd : d ≠ "") (hs : srt = (normalizeSort sortParam).str)
    (h : fetchTransactions db limit sortParam (some (cursorToJson ⟨srt, d, t, i⟩))
        tf cf df dt = .ok page) :
    ∀ it ∈ page.items,
      ¬(it.date = d ∧ ((itemRank it : Int) = t ∧ (it.id : Int) = i)) := by
  have hcc : fetchCursorCond (normalizeSort sortParam)
      (some (cursorToJson ⟨srt, d, t, i⟩)) = .ok (some (.text d, t, i)) := by
    have hcond5 : jsonIsObjLike (cursorToJson ⟨srt, d, t, i⟩) = true ∧
        jgetTruthy (cursorToJson ⟨srt, d, t, i⟩) "date" = true ∧
        jgetIsNum (cursorToJson ⟨srt, d, t, i⟩) "typeOrder" = true ∧
        jgetIsNum (cursorToJson ⟨srt, d, t, i⟩) "id" = true ∧
        jgetStrEq (cursorToJson ⟨srt, d, t, i⟩) "sort" (normalizeSort sortParam).str = true := by
      refine ⟨rfl, ?_, rfl, rfl, ?_⟩
      · show decide (d ≠ "") = true
        exact decide_eq_true hd
      · show decide (srt = (normalizeSort sortParam).str) = true
        exact decide_eq_true hs
    unfold fetchCursorCond
    dsimp only
    rw [if_pos (show jsonTruthy (cursorToJson ⟨srt, d, t, i⟩) = true from rfl)]
    rw [if_pos hcond5]
    rfl
  obtain ⟨l, hsub, hitems⟩ :=
    fetch_items_sublist db limit sortParam _ tf cf df dt page _ hcc h
  intro it hmem hbad
  rw [hitems] at hmem
  obtain ⟨r, hrl, rfl⟩ := List.mem_map.mp hmem
  have hrq := hsub.mem hrl
  have hcond := (queryRows_mem hrq).2.2 (.text d) t i rfl
  have hrd : r.date = d := hbad.1
  have hrt : (r.typeOrder : Int) = t := by
    have hrk : itemRank (toDTO r) = r.typeOrder := by
      rcases unionRows_typeOrder (queryRows_mem_union hrq) with ⟨h1, h2⟩ | ⟨h1, h2⟩ <;>
        simp [itemRank, toDTO, h1, h2]
    rw [← hbad.2.1, hrk]
  have hri : (r.id : Int) = i := hbad.2.2
  cases hdir : normalizeSort sortParam <;>
    rw [hdir] at hcond <;>
    · simp only [cursorCond, sqlDateLt, sqlDateGt, sqlDateEq, hrd, strLtB_irrefl,
        Bool.or_eq_true, Bool.and_eq_true, decide_eq_true_eq] at hcond
      rcases hcond with hcond | ⟨-, hcond | ⟨h1, h2⟩⟩
      · exact Bool.noConfusion hcond
      · omega
      · omega

/-- Witness for C3: a cursor taken at the income row of the Scenario A
database fetches a page, none of whose items carry the cursor's triple. -/
theorem cursor_boundary_exclusive_witness :
    ∃ page, fetchTransactions
      ⟨[⟨1, 1000, "salary", "2025-01-05T00:00:00.000Z"⟩],
        [⟨1, none, 50, "groceries", "2025-01-05T00:00:00.000Z"⟩],
        [], [], 2, 2, 1, 1⟩ 20 none
      (some (cursorToJson ⟨"newest", "2025-01-05T00:00:00.000Z", 0, 1⟩))
      none none none none = .ok page ∧
    ∀ it ∈ page.items,
      ¬(it.date = "2025-01-05T00:00:00.000Z" ∧
        ((itemRank it : Int) = 0 ∧ (it.id : Int) = 1)) := by
  have hfe : fetchTransactions
      ⟨[⟨1, 1000, "salary", "2025-01-05T00:00:00.000Z"⟩],
        [⟨1, none, 50, "groceries", "2025-01-05T00:00:00.000Z"⟩],
        [], [], 2, 2, 1, 1⟩ 20 none
      (some (cursorToJson ⟨"newest", "2025-01-05T00:00:00.000Z", 0, 1⟩))
      none none none none =
      .ok ⟨[toDTO (expenseFeedRow
              ⟨[⟨1, 1000, "salary", "2025-01-05T00:00:00.000Z"⟩],
                [⟨1, none, 50, "groceries", "2025-01-05T00:00:00.000Z"⟩],
                [], [], 2, 2, 1, 1⟩
              ⟨1, none, 50, "groceries", "2025-01-05T00:00:00.000Z"⟩)], none⟩ := by
    decide
  exact ⟨_, hfe,
    cursor_boundary_exclusive _ 20 none none none none none
      "newest" "2025-01-05T00:00:00.000Z" 0 1 _ (by decide) rfl hfe⟩

/-! ## Amount-validation lemmas -/

theorem insertCats_recurring :
    ∀ (newCats : List (String × String × String)) (db : Db)
      (cmap : List (String × Nat × String)) (count : Nat),
      (insertCats db cmap newCats count).1.recurring = db.recurring
  | [], _, _, _ => rfl
  | (key, name, bt) :: rest, db, cmap, count => by
    unfold insertCats
    exact insertCats_recurring rest _ _ _

theorem insertRecs_rows :
    ∀ (nrecs : List NormRec) (db : Db) (cmap : List (String × Nat × String))
      (eset : List String) (ins skip : Nat) (db2 : Db) (ins2 skip2 : Nat),
      insertRecs db cmap eset nrecs ins skip = .ok (db2, ins2, skip2) →
      ∀ row ∈ db2.recurring, row ∈ db.recurring ∨ ∃ nrec ∈ nrecs, row.amount = nrec.amount
  | [], db, cmap, eset, ins, skip, db2, ins2, skip2 => by
    intro h row hrow
    simp only [insertRecs, Except.ok.injEq, Prod.mk.injEq] at h
    rw [← h.1] at hrow
    exact Or.inl hrow
  | r :: rest, db, cmap, eset, ins, skip, db2, ins2, skip2 => by
    intro h row hrow
    simp only [insertRecs] at h
    cases hl : lookupA cmap r.categoryKey with
    | none => rw [hl] at h; exact absurd h (by simp)
    | some v =>
      rw [hl] at h
      obtain ⟨cid, nm⟩ := v
      dsimp only at h
      split at h
      · rcases insertRecs_rows rest db cmap eset ins (skip + 1) db2 ins2 skip2 h row hrow with
          hm | ⟨nrec, hn, ha⟩
        · exact Or.inl hm
        · exact Or.inr ⟨nrec, List.mem_cons_of_mem _ hn, ha⟩
      · rcases insertRecs_rows rest _ cmap _ (ins + 1) skip db2 ins2 skip2 h row hrow with
          hm | ⟨nrec, hn, ha⟩
        · rcases List.mem_append.mp hm with hm2 | hm2
          · exact Or.inl hm2
          · rcases List.mem_singleton.mp hm2 with rfl
            exact Or.inr ⟨r, List.mem_cons_self _ _, rfl⟩
        · exact Or.inr ⟨nrec, List.mem_cons_of_mem _ hn, ha⟩

theorem normalize2_shape (q : ℚ) : ∃ n : ℤ, normalize2 q = (n : ℚ) / 100 :=
  ⟨jsRound (q * 100), rfl⟩

theorem normalize2_nonneg {q : ℚ} (hq : 0 < q) :
    ∃ n : ℤ, 0 ≤ n ∧ normalize2 q = (n : ℚ) / 100 := by
  refine ⟨jsRound (q * 100), ?_, rfl⟩
  unfold jsRound
  rw [Int.le_floor]
  push_cast
  nlinarith

theorem buildRecList_amounts :
    ∀ (entries : List RecEntry) (pcats : List (String × String × String)) (idx : Nat)
      (acc : List NormRec) (seen : List String) (dups : Nat) (out : List NormRec) (dups2 : Nat),
      buildRecList pcats entries idx acc seen dups = .ok (out, dups2) →
      ∀ nrec ∈ out, nrec ∈ acc ∨ ∃ n : ℤ, 0 ≤ n ∧ nrec.amount = (n : ℚ) / 100
  | [], pcats, idx, acc, seen, dups, out, dups2 => by
    intro h nrec hn
    simp only [buildRecList, Except.ok.injEq, Prod.mk.injEq] at h
    rw [← h.1] at hn
    exact Or.inl hn
  | item :: rest, pcats, idx, acc, seen, dups, out, dups2 => by
    intro h nrec hn
    simp only [buildRecList] at h
    split_ifs at h with h1 h2 h3 h4 h5 h6 h7
    · rcases buildRecList_amounts rest pcats (idx + 1) acc seen (dups + 1) out dups2 h nrec hn
        with hm | hp
      · exact Or.inl hm
      · exact Or.inr hp
    · rcases buildRecList_amounts rest pcats (idx + 1) _ _ dups out dups2 h nrec hn
        with hm | hp
      · rcases List.mem_append.mp hm with hm2 | hm2
        · exact Or.inl hm2
        · rcases List.mem_singleton.mp hm2 with rfl
          refine Or.inr ?_
          exact normalize2_nonneg (not_le.mp h3)
      · exact Or.inr hp


/-! ## C5: cursor codec round trip -/
theorem b64CharVal_b64Char : ∀ n < 64, b64CharVal (b64Char n) = some n := by decide

theorem b64Char_ne_pad : ∀ n < 64, b64Char n ≠ '=' := by decide

theorem b64Decode_cons4 (c1 c2 c3 c4 : Char) (rest : List Char)
    (h3 : c3 ≠ '=') (h4 : c4 ≠ '=') :
    b64Decode (c1 :: c2 :: c3 :: c4 :: rest) =
      match b64CharVal c1, b64CharVal c2, b64CharVal c3, b64CharVal c4, b64Decode rest with
      | some a, some b, some c, some d, some bs =>
        some ((a * 4 + b / 16) :: (b % 16 * 16 + c / 4) :: (c % 4 * 64 + d) :: bs)
      | _, _, _, _, _ => none := by
  cases rest with
  | nil =>
    unfold b64Decode
    split
    · rename_i heq; exact absurd heq (by simp)
    · rename_i heq
      simp only [List.cons.injEq, and_true] at heq
      exact absurd heq.2.2.1 h3
    · rename_i heq
      simp only [List.cons.injEq, and_true] at heq
      exact absurd heq.2.2.2 h4
    · rename_i heq
      simp only [List.cons.injEq] at heq
      obtain ⟨rfl, rfl, rfl, rfl, hrest⟩ := heq
      cases hrest
      rfl
    · rename_i hno
      exact absurd rfl (hno c1 c2 c3 c4 [])
  | cons r rs =>
    rw [b64Decode.eq_def]
    split
    · rename_i heq; exact absurd heq (by simp)
    · rename_i heq; exact absurd heq (by simp)
    · rename_i heq; exact absurd heq (by simp)
    · rename_i heq
      simp only [List.cons.injEq] at heq
      obtain ⟨rfl, rfl, rfl, rfl, hrest⟩ := heq
      cases hrest
      rfl
    · rename_i hno
      exact absurd rfl (hno c1 c2 c3 c4 (r :: rs))

theorem b64Decode_pad2 (c1 c2 : Char) :
    b64Decode [c1, c2, '=', '='] =
      match b64CharVal c1, b64CharVal c2 with
      | some a, some b => some [a * 4 + b / 16]
      | _, _ => none := rfl

theorem b64Decode_pad1 (c1 c2 c3 : Char) (h3 : c3 ≠ '=') :
    b64Decode [c1, c2, c3, '='] =
      match b64CharVal c1, b64CharVal c2, b64CharVal c3 with
      | some a, some b, some c => some [a * 4 + b / 16, b % 16 * 16 + c / 4]
      | _, _, _ => none := by
  unfold b64Decode
  split
  · rename_i heq; exact absurd heq (by simp)
  · rename_i heq
    simp only [List.cons.injEq, and_true] at heq
    exact absurd heq.2.2 h3
  · rename_i heq
    simp only [List.cons.injEq, and_true] at heq
    obtain ⟨rfl, rfl, rfl⟩ := heq
    rfl
  · rename_i hc4 heq
    simp only [List.cons.injEq] at heq
    exact absurd (hc4 heq.2.2.2.1.symm heq.2.2.2.2.symm) id
  · rename_i hnil hpad2 hpad1 hcons
    exact absurd rfl (hcons c1 c2 c3 '=' [])

theorem b64_roundtrip : ∀ (bytes : List Nat), (∀ b ∈ bytes, b < 256) →
    b64Decode (b64Encode bytes) = some bytes := by
  intro bytes
  induction bytes using b64Encode.induct with
  | case1 => intro _; rfl
  | case2 a =>
    intro h
    have ha : a < 256 := h a (by simp)
    show b64Decode [b64Char (a / 4), b64Char (a % 4 * 16), '=', '='] = some [a]
    rw [b64Decode_pad2, b64CharVal_b64Char (a / 4) (by omega),
      b64CharVal_b64Char (a % 4 * 16) (by omega)]
    dsimp only
    have e : a / 4 * 4 + a % 4 * 16 / 16 = a := by omega
    rw [e]
  | case3 a b =>
    intro h
    have ha : a < 256 := h a (by simp)
    have hb : b < 256 := h b (by simp)
    show b64Decode [b64Char (a / 4), b64Char (a % 4 * 16 + b / 16), b64Char (b % 16 * 4), '='] =
      some [a, b]
    rw [b64Decode_pad1 _ _ _ (b64Char_ne_pad (b % 16 * 4) (by omega)),
      b64CharVal_b64Char (a / 4) (by omega),
      b64CharVal_b64Char (a % 4 * 16 + b / 16) (by omega),
      b64CharVal_b64Char (b % 16 * 4) (by omega)]
    dsimp only
    have e1 : a / 4 * 4 + (a % 4 * 16 + b / 16) / 16 = a := by omega
    have e2 : (a % 4 * 16 + b / 16) % 16 * 16 + b % 16 * 4 / 4 = b := by omega
    rw [e1, e2]
  | case4 a b c rest ih =>
    intro h
    have ha : a < 256 := h a (by simp)
    have hb : b < 256 := h b (by simp)
    have hc : c < 256 := h c (by simp)
    have hrest : ∀ x ∈ rest, x < 256 := fun x hx => h x (by simp [hx])
    show b64Decode (b64Char (a / 4) :: b64Char (a % 4 * 16 + b / 16) ::
      b64Char (b % 16 * 4 + c / 64) :: b64Char (c % 64) :: b64Encode rest) = some (a :: b :: c :: rest)
    rw [b64Decode_cons4 _ _ _ _ _ (b64Char_ne_pad (b % 16 * 4 + c / 64) (by omega))
        (b64Char_ne_pad (c % 64) (by omega)),
      b64CharVal_b64Char (a / 4) (by omega),
      b64CharVal_b64Char (a % 4 * 16 + b / 16) (by omega),
      b64CharVal_b64Char (b % 16 * 4 + c / 64) (by omega),
      b64CharVal_b64Char (c % 64) (by omega),
      ih hrest]
    dsimp only
    have e1 : a / 4 * 4 + (a % 4 * 16 + b / 16) / 16 = a := by omega
    have e2 : (a % 4 * 16 + b / 16) % 16 * 16 + (b % 16 * 4 + c / 64) / 4 = b := by omega
    have e3 : (b % 16 * 4 + c / 64) % 4 * 64 + c % 64 = c := by omega
    rw [e1, e2, e3]

theorem mkChar?_toNat (c : Char) : mkChar? c.toNat = some c := by
  unfold mkChar?
  rw [dif_pos (show c.toNat.isValidChar from c.valid)]
  refine congrArg some (Char.eq_of_val_eq (UInt32.eq_of_toBitVec_eq ?_))
  simp [Char.ofNatAux, UInt32.ofNatCore, Char.toNat]
  exact BitVec.eq_of_toNat_eq (by simp [UInt32.toNat])

theorem char_toNat_lt (c : Char) : c.toNat < 1114112 := by
  have h := c.valid
  unfold Nat.isValidChar UInt32.isValidChar at h
  have he : c.toNat = c.val.toNat := rfl
  rcases h with h | ⟨h1, h2⟩ <;> omega

theorem utf8EncodeChar_lt (c : Char) : ∀ b ∈ utf8EncodeChar c, b < 256 := by
  intro b hb
  have hc := char_toNat_lt c
  unfold utf8EncodeChar at hb
  dsimp only at hb
  split_ifs at hb with h1 h2 h3
  · rcases List.mem_singleton.mp hb with rfl; omega
  · rcases List.mem_cons.mp hb with rfl | hb2
    · omega
    · rcases List.mem_singleton.mp hb2 with rfl; omega
  · rcases List.mem_cons.mp hb with rfl | hb2
    · omega
    · rcases List.mem_cons.mp hb2 with rfl | hb3
      · omega
      · rcases List.mem_singleton.mp hb3 with rfl; omega
  · rcases List.mem_cons.mp hb with rfl | hb2
    · omega
    · rcases List.mem_cons.mp hb2 with rfl | hb3
      · omega
      · rcases List.mem_cons.mp hb3 with rfl | hb4
        · omega
        · rcases List.mem_singleton.mp hb4 with rfl; omega

theorem utf8Encode_lt (cs : List Char) : ∀ b ∈ utf8Encode cs, b < 256 := by
  induction cs with
  | nil => intro b hb; simp [utf8Encode] at hb
  | cons c rest ih =>
    intro b hb
    rcases List.mem_append.mp (by simpa [utf8Encode] using hb) with h | h
    · exact utf8EncodeChar_lt c b h
    · exact ih b h

theorem utf8Head_encodeChar (c : Char) (tail : List Nat) :
    utf8Head (utf8EncodeChar c ++ tail) = some (c, tail) := by
  have hc := char_toNat_lt c
  unfold utf8EncodeChar
  dsimp only
  by_cases h1 : c.toNat < 128
  · rw [if_pos h1]
    simp only [List.singleton_append]
    rw [utf8Head.eq_def]
    dsimp only
    rw [if_pos h1, mkChar?_toNat]
    rfl
  · rw [if_neg h1]
    by_cases h2 : c.toNat < 2048
    · rw [if_pos h2]
      simp only [List.cons_append, List.nil_append]
      rw [utf8Head.eq_def]
      dsimp only
      rw [if_neg (by omega), if_neg (by omega), if_pos (by omega)]
      rw [if_pos (show isCont (128 + c.toNat % 64) = true by
        simp only [isCont, decide_eq_true_eq]; omega)]
      have hv : (192 + c.toNat / 64 - 192) * 64 + (128 + c.toNat % 64 - 128) = c.toNat := by
        omega
      rw [hv, mkChar?_toNat]
      rfl
    · rw [if_neg h2]
      by_cases h3 : c.toNat < 65536
      · rw [if_pos h3]
        simp only [List.cons_append, List.nil_append]
        rw [utf8Head.eq_def]
        dsimp only
        rw [if_neg (by omega), if_neg (by omega), if_neg (by omega), if_pos (by omega)]
        rw [if_pos (show isCont (128 + c.toNat / 64 % 64) = true ∧
            isCont (128 + c.toNat % 64) = true by
          refine ⟨?_, ?_⟩ <;> (simp only [isCont, decide_eq_true_eq]; omega))]
        have hv : (224 + c.toNat / 4096 - 224) * 4096 + (128 + c.toNat / 64 % 64 - 128) * 64 +
            (128 + c.toNat % 64 - 128) = c.toNat := by omega
        rw [hv, mkChar?_toNat]
        rfl
      · rw [if_neg h3]
        simp only [List.cons_append, List.nil_append]
        rw [utf8Head.eq_def]
        dsimp only
        rw [if_neg (by omega), if_neg (by omega), if_neg (by omega), if_neg (by omega),
          if_pos (by omega)]
        rw [if_pos (show isCont (128 + c.toNat / 4096 % 64) = true ∧
            isCont (128 + c.toNat / 64 % 64) = true ∧ isCont (128 + c.toNat % 64) = true by
          refine ⟨?_, ?_, ?_⟩ <;> (simp only [isCont, decide_eq_true_eq]; omega))]
        have hv : (240 + c.toNat / 262144 - 240) * 262144 +
            (128 + c.toNat / 4096 % 64 - 128) * 4096 +
            (128 + c.toNat / 64 % 64 - 128) * 64 + (128 + c.toNat % 64 - 128) = c.toNat := by
          omega
        rw [hv, mkChar?_toNat]
        rfl

theorem utf8EncodeChar_ne_nil (c : Char) : utf8EncodeChar c ≠ [] := by
  unfold utf8EncodeChar
  dsimp only
  split_ifs <;> simp

theorem utf8DecodeAux_encode : ∀ (cs : List Char) (fuel : Nat),
    (utf8Encode cs).length ≤ fuel → utf8DecodeAux fuel (utf8Encode cs) = some cs := by
  intro cs
  induction cs with
  | nil => intro fuel _; cases fuel <;> rfl
  | cons c rest ih =>
    intro fuel hfuel
    have hne := utf8EncodeChar_ne_nil c
    rcases henc : utf8EncodeChar c with _ | ⟨b0, tl⟩
    · exact absurd henc hne
    have hshape : utf8Encode (c :: rest) = b0 :: (tl ++ utf8Encode rest) := by
      show utf8EncodeChar c ++ utf8Encode rest = _
      rw [henc]; rfl
    have hlen : (utf8Encode (c :: rest)).length = 1 + (tl ++ utf8Encode rest).length := by
      rw [hshape]; simp [Nat.add_comm]
    rcases fuel with _ | f
    · rw [hlen] at hfuel; omega
    rw [hshape]
    rw [utf8DecodeAux.eq_def]
    dsimp only
    have hhead : utf8Head (b0 :: (tl ++ utf8Encode rest)) = some (c, utf8Encode rest) := by
      have := utf8Head_encodeChar c (utf8Encode rest)
      rw [henc] at this
      simpa using this
    rw [hhead]
    dsimp only
    rw [ih f (by
      rw [hlen] at hfuel
      have : (utf8Encode rest).length ≤ (tl ++ utf8Encode rest).length := by simp
      omega)]
    rfl

theorem utf8_roundtrip (cs : List Char) : utf8Decode (utf8Encode cs) = some cs :=
  utf8DecodeAux_encode cs (utf8Encode cs).length le_rfl

theorem hexVal_hexDigit : ∀ k < 16, hexVal (jsonEscapeChar.hexDigit k) = some k := by decide

theorem parseStringBodyAux_escape : ∀ (s : List Char) (rest : List Char) (fuel : Nat),
    (jsonEscape s ++ '"' :: rest).length ≤ fuel →
    parseStringBodyAux fuel (jsonEscape s ++ '"' :: rest) = some (s, rest) := by
  intro s
  induction s with
  | nil =>
    intro rest fuel hf
    simp only [jsonEscape, List.nil_append, List.length_cons] at hf ⊢
    rcases fuel with _ | f
    · omega
    rw [parseStringBodyAux.eq_def]
    dsimp only
    rw [if_pos rfl]
  | cons c cs ih =>
    intro rest fuel hf
    have hstep : jsonEscape (c :: cs) = jsonEscapeChar c ++ jsonEscape cs := rfl
    by_cases h34 : c.toNat = 34
    · obtain rfl : c = '"' := charToNat_inj (by rw [h34]; rfl)
      have hsh : jsonEscape ('"' :: cs) ++ '"' :: rest =
          '\\' :: '"' :: (jsonEscape cs ++ '"' :: rest) := by
        rw [hstep]; rfl
      rw [hsh] at hf ⊢
      simp only [List.length_cons] at hf
      rcases fuel with _ | f
      · omega
      rw [parseStringBodyAux.eq_def]
      dsimp only
      rw [if_neg (by decide), if_pos rfl]
      rw [show escStep ('"' :: (jsonEscape cs ++ '"' :: rest)) =
        some ('"', jsonEscape cs ++ '"' :: rest) from rfl]
      rw [Option.some_bind]
      rw [ih rest f (by simp only [List.length_append, List.length_cons] at hf ⊢; omega)]
      rfl
    by_cases h92 : c.toNat = 92
    · obtain rfl : c = '\\' := charToNat_inj (by rw [h92]; rfl)
      have hsh : jsonEscape ('\\' :: cs) ++ '"' :: rest =
          '\\' :: '\\' :: (jsonEscape cs ++ '"' :: rest) := by
        rw [hstep]; rfl
      rw [hsh] at hf ⊢
      simp only [List.length_cons] at hf
      rcases fuel with _ | f
      · omega
      rw [parseStringBodyAux.eq_def]
      dsimp only
      rw [if_neg (by decide), if_pos rfl]
      rw [show escStep ('\\' :: (jsonEscape cs ++ '"' :: rest)) =
        some ('\\', jsonEscape cs ++ '"' :: rest) from rfl]
      rw [Option.some_bind]
      rw [ih rest f (by simp only [List.length_append, List.length_cons] at hf ⊢; omega)]
      rfl
    by_cases h8 : c.toNat = 8
    · obtain rfl : c = Char.ofNat 8 := charToNat_inj (by rw [h8]; rfl)
      have hsh : jsonEscape (Char.ofNat 8 :: cs) ++ '"' :: rest =
          '\\' :: 'b' :: (jsonEscape cs ++ '"' :: rest) := by
        rw [hstep]; rfl
      rw [hsh] at hf ⊢
      simp only [List.length_cons] at hf
      rcases fuel with _ | f
      · omega
      rw [parseStringBodyAux.eq_def]
      dsimp only
      rw [if_neg (by decide), if_pos rfl]
      rw [show escStep ('b' :: (jsonEscape cs ++ '"' :: rest)) =
        some (Char.ofNat 8, jsonEscape cs ++ '"' :: rest) from rfl]
      rw [Option.some_bind]
      rw [ih rest f (by simp only [List.length_append, List.length_cons] at hf ⊢; omega)]
      rfl
    by_cases h9 : c.toNat = 9
    · obtain rfl : c = Char.ofNat 9 := charToNat_inj (by rw [h9]; rfl)
      have hsh : jsonEscape (Char.ofNat 9 :: cs) ++ '"' :: rest =
          '\\' :: 't' :: (jsonEscape cs ++ '"' :: rest) := by
        rw [hstep]; rfl
      rw [hsh] at hf ⊢
      simp only [List.length_cons] at hf
      rcases fuel with _ | f
      · omega
      rw [parseStringBodyAux.eq_def]
      dsimp only
      rw [if_neg (by decide), if_pos rfl]
      rw [show escStep ('t' :: (jsonEscape cs ++ '"' :: rest)) =
        some (Char.ofNat 9, jsonEscape cs ++ '"' :: rest) from rfl]
      rw [Option.some_bind]
      rw [ih rest f (by simp only [List.length_append, List.length_cons] at hf ⊢; omega)]
      rfl
    by_cases h10 : c.toNat = 10
    · obtain rfl : c = Char.ofNat 10 := charToNat_inj (by rw [h10]; rfl)
      have hsh : jsonEscape (Char.ofNat 10 :: cs) ++ '"' :: rest =
          '\\' :: 'n' :: (jsonEscape cs ++ '"' :: rest) := by
        rw [hstep]; rfl
      rw [hsh] at hf ⊢
      simp only [List.length_cons] at hf
      rcases fuel with _ | f
      · omega
      rw [parseStringBodyAux.eq_def]
      dsimp only
      rw [if_neg (by decide), if_pos rfl]
      rw [show escStep ('n' :: (jsonEscape cs ++ '"' :: rest)) =
        some (Char.ofNat 10, jsonEscape cs ++ '"' :: rest) from rfl]
      rw [Option.some_bind]
      rw [ih rest f (by simp only [List.length_append, List.length_cons] at hf ⊢; omega)]
      rfl
    by_cases h12 : c.toNat = 12
    · obtain rfl : c = Char.ofNat 12 := charToNat_inj (by rw [h12]; rfl)
      have hsh : jsonEscape (Char.ofNat 12 :: cs) ++ '"' :: rest =
          '\\' :: 'f' :: (jsonEscape cs ++ '"' :: rest) := by
        rw [hstep]; rfl
      rw [hsh] at hf ⊢
      simp only [List.length_cons] at hf
      rcases fuel with _ | f
      · omega
      rw [parseStringBodyAux.eq_def]
      dsimp only
      rw [if_neg (by decide), if_pos rfl]
      rw [show escStep ('f' :: (jsonEscape cs ++ '"' :: rest)) =
        some (Char.ofNat 12, jsonEscape cs ++ '"' :: rest) from rfl]
      rw [Option.some_bind]
      rw [ih rest f (by simp only [List.length_append, List.length_cons] at hf ⊢; omega)]
      rfl
    by_cases h13 : c.toNat = 13
    · obtain rfl : c = Char.ofNat 13 := charToNat_inj (by rw [h13]; rfl)
      have hsh : jsonEscape (Char.ofNat 13 :: cs) ++ '"' :: rest =
          '\\' :: 'r' :: (jsonEscape cs ++ '"' :: rest) := by
        rw [hstep]; rfl
      rw [hsh] at hf ⊢
      simp only [List.length_cons] at hf
      rcases fuel with _ | f
      · omega
      rw [parseStringBodyAux.eq_def]
      dsimp only
      rw [if_neg (by decide), if_pos rfl]
      rw [show escStep ('r' :: (jsonEscape cs ++ '"' :: rest)) =
        some (Char.ofNat 13, jsonEscape cs ++ '"' :: rest) from rfl]
      rw [Option.some_bind]
      rw [ih rest f (by simp only [List.length_append, List.length_cons] at hf ⊢; omega)]
      rfl
    by_cases h32 : c.toNat < 32
    · have hsh : jsonEscape (c :: cs) ++ '"' :: rest =
          '\\' :: 'u' :: '0' :: '0' :: jsonEscapeChar.hexDigit (c.toNat / 16) ::
            jsonEscapeChar.hexDigit (c.toNat % 16) :: (jsonEscape cs ++ '"' :: rest) := by
        rw [hstep]
        unfold jsonEscapeChar
        dsimp only
        rw [if_neg h34, if_neg h92, if_neg h8, if_neg h9, if_neg h10, if_neg h12, if_neg h13,
          if_pos h32]
        rfl
      rw [hsh] at hf ⊢
      simp only [List.length_cons] at hf
      rcases fuel with _ | f
      · omega
      rw [parseStringBodyAux.eq_def]
      dsimp only
      rw [if_neg (by decide), if_pos rfl]
      rw [escStep.eq_def]
      dsimp only
      rw [if_neg (by decide), if_neg (by decide), if_neg (by decide), if_neg (by decide),
        if_neg (by decide), if_neg (by decide), if_pos rfl]
      rw [show hexVal '0' = some 0 from rfl,
        hexVal_hexDigit (c.toNat / 16) (by omega), hexVal_hexDigit (c.toNat % 16) (by omega)]
      dsimp only
      have hv : 0 * 4096 + 0 * 256 + c.toNat / 16 * 16 + c.toNat % 16 = c.toNat := by omega
      rw [hv, mkChar?_toNat]
      dsimp only [Option.map, Option.bind]
      rw [ih rest f (by simp only [List.length_append, List.length_cons] at hf ⊢; omega)]
    · have hsh : jsonEscape (c :: cs) ++ '"' :: rest =
          c :: (jsonEscape cs ++ '"' :: rest) := by
        rw [hstep]
        unfold jsonEscapeChar
        dsimp only
        rw [if_neg h34, if_neg h92, if_neg h8, if_neg h9, if_neg h10, if_neg h12, if_neg h13,
          if_neg h32]
        rfl
      rw [hsh] at hf ⊢
      simp only [List.length_cons] at hf
      rcases fuel with _ | f
      · omega
      rw [parseStringBodyAux.eq_def]
      dsimp only
      rw [if_neg (show ¬ c = '"' from fun h => h34 (by rw [h]; rfl)),
        if_neg (show ¬ c = '\\' from fun h => h92 (by rw [h]; rfl)),
        if_neg h32]
      rw [ih rest f (by simp only [List.length_append, List.length_cons] at hf ⊢; omega)]
      rfl

theorem isDigitN_ofNat : ∀ n < 10, isDigitN (Char.ofNat (48 + n)) = true := by decide

theorem toNat_ofNat_digit : ∀ n < 10, (Char.ofNat (48 + n)).toNat = 48 + n := by decide

theorem digitRun_go : ∀ (fuel n acc : Nat) (rest : List Char), n < 10 ^ fuel →
    digitRun (natDigitsAux fuel n ++ rest) acc =
      digitRun rest (acc * 10 ^ (natDigitsAux fuel n).length + n) := by
  intro fuel
  induction fuel with
  | zero =>
    intro n acc rest hn
    have h0 : n = 0 := by simpa using hn
    subst h0
    simp [natDigitsAux]
  | succ f ih =>
    intro n acc rest hn
    by_cases h10 : n < 10
    · have hA : natDigitsAux (f + 1) n = [Char.ofNat (48 + n)] := by
        rw [natDigitsAux.eq_def]
        dsimp only
        rw [if_pos h10]
      rw [hA]
      simp only [List.singleton_append, List.length_singleton]
      simp only [digitRun]
      rw [if_pos (isDigitN_ofNat n h10)]
      rw [toNat_ofNat_digit n h10]
      have harg : acc * 10 + (48 + n - 48) = acc * 10 ^ 1 + n := by
        rw [pow_one]; omega
      rw [harg]
    · have hA : natDigitsAux (f + 1) n =
          natDigitsAux f (n / 10) ++ [Char.ofNat (48 + n % 10)] := by
        rw [natDigitsAux.eq_def]
        dsimp only
        rw [if_neg h10]
      rw [hA, List.append_assoc]
      simp only [List.singleton_append]
      have hlt : n / 10 < 10 ^ f := by
        have hp : (10 : Nat) ^ (f + 1) = 10 ^ f * 10 := pow_succ 10 f
        omega
      rw [ih (n / 10) acc (Char.ofNat (48 + n % 10) :: rest) hlt]
      simp only [digitRun]
      rw [if_pos (isDigitN_ofNat (n % 10) (by omega))]
      rw [toNat_ofNat_digit (n % 10) (by omega)]
      simp only [List.length_append, List.length_singleton]
      have he : acc * 10 ^ ((natDigitsAux f (n / 10)).length + 1) =
          acc * 10 ^ (natDigitsAux f (n / 10)).length * 10 := by
        rw [pow_succ, Nat.mul_assoc]
      rw [he]
      have harg : (acc * 10 ^ (natDigitsAux f (n / 10)).length + n / 10) * 10 +
          (48 + n % 10 - 48) =
          acc * 10 ^ (natDigitsAux f (n / 10)).length * 10 + n := by
        omega
      rw [harg]

theorem digitRun_natDigits (n : Nat) (rest : List Char) :
    digitRun (natDigits n ++ rest) 0 = digitRun rest n := by
  have hn : n < 10 ^ (n + 1) := by
    calc n < 10 ^ n := Nat.lt_pow_self (by norm_num) n
    _ ≤ 10 ^ (n + 1) := Nat.pow_le_pow_right (by norm_num) (Nat.le_succ n)
  have h := digitRun_go (n + 1) n 0 rest hn
  simpa [natDigits] using h

theorem digitRun_nondigit (c : Char) (cs : List Char) (acc : Nat)
    (hc : isDigitN c = false) : digitRun (c :: cs) acc = (acc, c :: cs) := by
  simp only [digitRun]
  rw [if_neg (by simp [hc])]

theorem natDigitsAux_head : ∀ fuel n d ds, natDigitsAux fuel n = d :: ds →
    isDigitN d = true := by
  intro fuel
  induction fuel with
  | zero => intro n d ds h; exact absurd h (by simp [natDigitsAux])
  | succ f ih =>
    intro n d ds h
    rw [natDigitsAux.eq_def] at h
    dsimp only at h
    split_ifs at h with h10
    · simp only [List.cons.injEq] at h
      obtain ⟨rfl, -⟩ := h
      exact isDigitN_ofNat n h10
    · rcases hA : natDigitsAux f (n / 10) with _ | ⟨d0, ds0⟩
      · rw [hA] at h
        simp only [List.nil_append, List.cons.injEq] at h
        obtain ⟨rfl, -⟩ := h
        exact isDigitN_ofNat (n % 10) (by omega)
      · rw [hA] at h
        simp only [List.cons_append, List.cons.injEq] at h
        obtain ⟨rfl, -⟩ := h
        exact ih (n / 10) d0 ds0 hA

theorem natDigits_head (n : Nat) :
    ∃ d ds, natDigits n = d :: ds ∧ isDigitN d = true := by
  rcases hA : natDigits n with _ | ⟨d, ds⟩
  · exfalso
    unfold natDigits at hA
    rw [natDigitsAux.eq_def] at hA
    dsimp only at hA
    split_ifs at hA with h10 ; simp at hA
  · exact ⟨d, ds, rfl, natDigitsAux_head (n + 1) n d ds hA⟩

theorem digit_ne_minus {d : Char} (hd : isDigitN d = true) : ¬ d = '-' := by
  intro h
  rw [h] at hd
  exact absurd hd (by decide)

theorem parseIntNum_intDigits (m : Int) (c : Char) (rest : List Char)
    (hc : isDigitN c = false) :
    parseIntNum (intDigits m ++ c :: rest) = some (m, c :: rest) := by
  obtain ⟨d, ds, hA, hd⟩ := natDigits_head m.natAbs
  unfold intDigits
  by_cases hm : m < 0
  · rw [if_pos hm]
    simp only [List.cons_append]
    rw [parseIntNum.eq_def]
    dsimp only
    rw [if_pos rfl]
    rw [hA]
    simp only [List.cons_append]
    rw [if_pos hd]
    rw [show d :: (ds ++ c :: rest) = natDigits m.natAbs ++ c :: rest from by
      rw [hA]; simp]
    rw [digitRun_natDigits, digitRun_nondigit c rest _ hc]
    dsimp only
    have hneg : -((m.natAbs : Nat) : Int) = m := by omega
    rw [hneg]
  · rw [if_neg hm]
    rw [hA]
    simp only [List.cons_append]
    rw [parseIntNum.eq_def]
    dsimp only
    rw [if_neg (digit_ne_minus hd), if_pos hd]
    rw [show d :: (ds ++ c :: rest) = natDigits m.natAbs ++ c :: rest from by
      rw [hA]; simp]
    rw [digitRun_natDigits, digitRun_nondigit c rest _ hc]
    dsimp only
    have hpos : ((m.natAbs : Nat) : Int) = m := by omega
    rw [hpos]

theorem parseStringBody_escape (s : List Char) (rest : List Char) :
    parseStringBody (jsonEscape s ++ '"' :: rest) = some (s, rest) :=
  parseStringBodyAux_escape s rest _ le_rfl

theorem digit_ne {d c : Char} (hd : isDigitN d = true) (hc : isDigitN c = false) : ¬ d = c := by
  intro h
  rw [h] at hd
  rw [hd] at hc
  exact Bool.noConfusion hc

theorem parseMembers_last (fuel : Nat) (key : List Char) (v : Json) (valrest rest : List Char)
    (hv : parseValue fuel valrest = some (v, Char.ofNat 125 :: rest)) :
    parseMembers (fuel + 1) ('"' :: (jsonEscape key ++ '"' :: ':' :: valrest)) =
      some ([(String.mk key, v)], rest) := by
  rw [parseMembers.eq_def]
  dsimp only
  rw [if_pos rfl]
  rw [parseStringBody_escape]
  rw [Option.some_bind]
  rw [show expectColon (':' :: valrest) = some valrest from rfl, Option.some_bind]
  rw [hv, Option.some_bind]
  dsimp only
  rw [if_neg (by decide), if_pos rfl]

theorem parseMembers_cons (fuel : Nat) (key : List Char) (v : Json)
    (valrest rest rem : List Char) (ms : List (String × Json))
    (hv : parseValue fuel valrest = some (v, ',' :: rest))
    (hm : parseMembers fuel rest = some (ms, rem)) :
    parseMembers (fuel + 1) ('"' :: (jsonEscape key ++ '"' :: ':' :: valrest)) =
      some ((String.mk key, v) :: ms, rem) := by
  rw [parseMembers.eq_def]
  dsimp only
  rw [if_pos rfl, parseStringBody_escape, Option.some_bind,
    show expectColon (':' :: valrest) = some valrest from rfl, Option.some_bind,
    hv, Option.some_bind]
  dsimp only
  rw [if_pos rfl, hm]
  rfl

theorem parseValue_str (fuel : Nat) (s : String) (rest : List Char) :
    parseValue (fuel + 1) ('"' :: (jsonEscape s.data ++ '"' :: rest)) = some (.str s, rest) := by
  rw [parseValue.eq_def]
  dsimp only
  rw [if_pos rfl, parseStringBody_escape]
  rfl

theorem intDigits_head (m : Int) :
    ∃ d tl, intDigits m = d :: tl ∧ (isDigitN d = true ∨ d = '-') := by
  obtain ⟨d, ds, hA, hd⟩ := natDigits_head m.natAbs
  unfold intDigits
  by_cases hm : m < 0
  · rw [if_pos hm]; exact ⟨'-', natDigits m.natAbs, rfl, Or.inr rfl⟩
  · rw [if_neg hm]; exact ⟨d, ds, hA, Or.inl hd⟩

theorem parseValue_num (fuel : Nat) (m : Int) (delim : Char) (rest : List Char)
    (hd : isDigitN delim = false) :
    parseValue (fuel + 1) (intDigits m ++ delim :: rest) = some (.num m, delim :: rest) := by
  obtain ⟨d0, tl, hI, hd0⟩ := intDigits_head m
  rw [hI]
  simp only [List.cons_append]
  rw [parseValue.eq_def]
  dsimp only
  have hne : ¬ d0 = '"' ∧ ¬ d0 = Char.ofNat 123 ∧ ¬ d0 = '[' ∧ ¬ d0 = 't' ∧
      ¬ d0 = 'f' ∧ ¬ d0 = 'n' := by
    rcases hd0 with hdig | rfl
    · exact ⟨digit_ne hdig (by decide), digit_ne hdig (by decide), digit_ne hdig (by decide),
        digit_ne hdig (by decide), digit_ne hdig (by decide), digit_ne hdig (by decide)⟩
    · exact ⟨by decide, by decide, by decide, by decide, by decide, by decide⟩
  rw [if_neg hne.1, if_neg hne.2.1, if_neg hne.2.2.1, if_neg hne.2.2.2.1,
    if_neg hne.2.2.2.2.1, if_neg hne.2.2.2.2.2]
  rw [show d0 :: (tl ++ delim :: rest) = intDigits m ++ delim :: rest from by rw [hI]; simp]
  rw [parseIntNum_intDigits m delim rest hd]
  rfl

theorem cursorChars (c : CursorRec) :
    jsonStringify (cursorToJson c) =
      Char.ofNat 123 :: ('"' :: (jsonEscape "sort".data ++ '"' :: ':' ::
        ('"' :: (jsonEscape c.sort.data ++ '"' :: ',' ::
        ('"' :: (jsonEscape "date".data ++ '"' :: ':' ::
        ('"' :: (jsonEscape c.date.data ++ '"' :: ',' ::
        ('"' :: (jsonEscape "typeOrder".data ++ '"' :: ':' ::
        (intDigits c.typeOrder ++ ',' ::
        ('"' :: (jsonEscape "id".data ++ '"' :: ':' ::
        (intDigits c.id ++ [Char.ofNat 125])))))))))))))) := by
  show Char.ofNat 123 ::
    (jsonStringify.stringifyFields [("sort", .str c.sort), ("date", .str c.date),
      ("typeOrder", .num c.typeOrder), ("id", .num c.id)] ++ [Char.ofNat 125]) = _
  simp only [jsonStringify.stringifyFields, jsonStringify, List.append_assoc,
    List.cons_append, List.nil_append]

theorem parseValue_cursor (c : CursorRec) (fuel : Nat) :
    parseValue (fuel + 6) (jsonStringify (cursorToJson c)) = some (cursorToJson c, []) := by
  have hm4 : parseMembers (fuel + 2)
      ('"' :: (jsonEscape "id".data ++ '"' :: ':' :: (intDigits c.id ++ [Char.ofNat 125]))) =
      some ([("id", .num c.id)], []) :=
    parseMembers_last (fuel + 1) "id".data (.num c.id) _ []
      (parseValue_num fuel c.id (Char.ofNat 125) [] (by decide))
  have hm3 : parseMembers (fuel + 3)
      ('"' :: (jsonEscape "typeOrder".data ++ '"' :: ':' ::
        (intDigits c.typeOrder ++ ',' ::
        ('"' :: (jsonEscape "id".data ++ '"' :: ':' :: (intDigits c.id ++ [Char.ofNat 125])))))) =
      some ([("typeOrder", .num c.typeOrder), ("id", .num c.id)], []) :=
    parseMembers_cons (fuel + 2) "typeOrder".data (.num c.typeOrder) _ _ [] _
      (parseValue_num (fuel + 1) c.typeOrder ',' _ (by decide)) hm4
  have hm2 : parseMembers (fuel + 4)
      ('"' :: (jsonEscape "date".data ++ '"' :: ':' ::
        ('"' :: (jsonEscape c.date.data ++ '"' :: ',' ::
        ('"' :: (jsonEscape "typeOrder".data ++ '"' :: ':' ::
        (intDigits c.typeOrder ++ ',' ::
        ('"' :: (jsonEscape "id".data ++ '"' :: ':' ::
        (intDigits c.id ++ [Char.ofNat 125])))))))))) =
      some ([("date", .str c.date), ("typeOrder", .num c.typeOrder), ("id", .num c.id)], []) :=
    parseMembers_cons (fuel + 3) "date".data (.str c.date) _ _ [] _
      (parseValue_str (fuel + 2) c.date _) hm3
  have hm1 : parseMembers (fuel + 5)
      ('"' :: (jsonEscape "sort".data ++ '"' :: ':' ::
        ('"' :: (jsonEscape c.sort.data ++ '"' :: ',' ::
        ('"' :: (jsonEscape "date".data ++ '"' :: ':' ::
        ('"' :: (jsonEscape c.date.data ++ '"' :: ',' ::
        ('"' :: (jsonEscape "typeOrder".data ++ '"' :: ':' ::
        (intDigits c.typeOrder ++ ',' ::
        ('"' :: (jsonEscape "id".data ++ '"' :: ':' ::
        (intDigits c.id ++ [Char.ofNat 125])))))))))))))) =
      some ([("sort", .str c.sort), ("date", .str c.date), ("typeOrder", .num c.typeOrder),
        ("id", .num c.id)], []) :=
    parseMembers_cons (fuel + 4) "sort".data (.str c.sort) _ _ [] _
      (parseValue_str (fuel + 3) c.sort _) hm2
  rw [cursorChars c]
  rw [parseValue.eq_def]
  dsimp only
  rw [if_neg (by decide), if_pos rfl]
  rw [if_neg (by decide)]
  rw [hm1]
  rfl

theorem jsonParse_stringify_cursor (c : CursorRec) :
    jsonParse (jsonStringify (cursorToJson c)) = some (cursorToJson c) := by
  unfold jsonParse
  have hlen : 5 ≤ (jsonStringify (cursorToJson c)).length := by
    rw [cursorChars c]
    simp only [List.length_cons, List.length_append]
    omega
  obtain ⟨m, hm⟩ : ∃ m, (jsonStringify (cursorToJson c)).length + 1 = m + 6 :=
    ⟨(jsonStringify (cursorToJson c)).length - 5, by omega⟩
  rw [hm, parseValue_cursor c m]

/-- C5: for every cursor record consisting of exactly the four fields
`sort` (a string), `date` (a string), `typeOrder` and `id` (integers),
decoding the encoded token recovers exactly the serialised four-field JSON
object: `decodeCursor (encodeCursor c) = some (cursorToJson c)`. -/
theorem cursor_codec_roundtrip (c : CursorRec) :
    decodeCursor (encodeCursor c) = some (cursorToJson c) := by
  unfold decodeCursor encodeCursor
  rw [show (String.mk (b64Encode (utf8Encode (jsonStringify (cursorToJson c))))).data =
    b64Encode (utf8Encode (jsonStringify (cursorToJson c))) from rfl]
  rw [b64_roundtrip _ (utf8Encode_lt _)]
  dsimp only
  rw [utf8_roundtrip]
  dsimp only
  exact jsonParse_stringify_cursor c

theorem cursor_codec_roundtrip_witness :
    decodeCursor (encodeCursor ⟨"newest", "2025-01-02T00:00:00.000Z", 0, 17⟩) =
      some (cursorToJson ⟨"newest", "2025-01-02T00:00:00.000Z", 0, 17⟩) :=
  cursor_codec_roundtrip ⟨"newest", "2025-01-02T00:00:00.000Z", 0, 17⟩

/-! ## C9: amount validation per write endpoint (corrected) -/

/-- C9 (as stated) is false: income creation accepts an amount with more
than two decimal places. `POST /api/income` with amount `0.001` succeeds and
stores `0.001`, which is not an integer number of cents. -/
theorem amount_two_decimals_counterexample :
    (∃ dbr, incomeCreate ⟨[], [], [], [], 1, 1, 1, 1⟩ "2025-01-01T00:00:00.000Z"
      (1 / 1000) none = .ok (dbr, ⟨1, 1 / 1000, "", "2025-01-01T00:00:00.000Z"⟩)) ∧
    ¬ ∃ n : ℤ, (1 / 1000 : ℚ) = (n : ℚ) / 100 := by
  constructor
  · refine ⟨⟨[⟨1, 1 / 1000, "", "2025-01-01T00:00:00.000Z"⟩], [], [], [], 2, 1, 1, 1⟩, ?_⟩
    simp only [incomeCreate, if_neg (by norm_num : ¬ (1 / 1000 : ℚ) ≤ 0)]
    rfl
  · rintro ⟨n, hn⟩
    have h2 : (100 : ℚ) = (n : ℚ) * 1000 := by
      field_simp at hn
      linarith
    have h3 : (100 : ℤ) = n * 1000 := by exact_mod_cast h2
    omega

/-- C9 (amended). Every write endpoint enforces strict positivity of the
submitted amount, but only recurring-template creation and template import
enforce the two-decimal rule: income and expense creation store the
submitted amount unchanged (with any precision), while recurring creation
and import store the amount rounded to two decimals (an exact nonnegative
multiple of 0.01), accepting it only within `1e-8` of that rounding. -/
theorem amount_validation_per_endpoint :
    (∀ (db : Db) (now : String) (amount : ℚ) (src : Option String),
      (amount ≤ 0 → incomeCreate db now amount src =
        .error ⟨400, "Amount must be a positive number."⟩) ∧
      (0 < amount → ∃ dbr, incomeCreate db now amount src =
        .ok (dbr, ⟨db.nextIncomeId, amount, strTake (strTrim (src.getD "")) 255, now⟩))) ∧
    (∀ (db : Db) (now : String) (amount : ℚ) (desc : Option String),
      (amount ≤ 0 → expenseCreate db now amount desc none =
        .error ⟨400, "Amount must be a positive number."⟩) ∧
      (0 < amount → ∃ dbr, expenseCreate db now amount desc none =
        .ok (dbr, ⟨db.nextExpenseId, none, amount, strTake (strTrim (desc.getD "")) 255, now⟩))) ∧
    (∀ (db : Db) (desc : Option String) (amount : ℚ) (catRaw : Option String)
        (dbr : Db) (row : RecRow),
      recurringCreate db desc amount catRaw = .ok (dbr, row) →
      0 < amount ∧ row.amount = normalize2 amount ∧
      (∃ n : ℤ, 0 ≤ n ∧ row.amount = (n : ℚ) / 100) ∧
      |row.amount - amount| ≤ 1 / 100000000) ∧
    (∀ (db : Db) (p : Payload) (db2 : Db) (res : ImportCounts),
      importTemplates db p = .ok (db2, res) →
      ∀ row ∈ db2.recurring, row ∈ db.recurring ∨
        ∃ n : ℤ, 0 ≤ n ∧ row.amount = (n : ℚ) / 100) := by
  refine ⟨?_, ?_, ?_, ?_⟩
  · intro db now amount src
    constructor
    · intro hle
      simp only [incomeCreate, if_pos hle]
    · intro hpos
      refine ⟨{ db with
        income := db.income ++ [⟨db.nextIncomeId, amount, strTake (strTrim (src.getD "")) 255, now⟩],
        nextIncomeId := db.nextIncomeId + 1 }, ?_⟩
      simp only [incomeCreate, if_neg (not_le.mpr hpos)]
  · intro db now amount desc
    constructor
    · intro hle
      simp only [expenseCreate, if_pos hle]
    · intro hpos
      refine ⟨{ db with
        expend := db.expend ++
          [⟨db.nextExpenseId, none, amount, strTake (strTrim (desc.getD "")) 255, now⟩],
        nextExpenseId := db.nextExpenseId + 1 }, ?_⟩
      simp only [expenseCreate, if_neg (not_le.mpr hpos), resolveExpenseCategory]
  · intro db desc amount catRaw dbr row h
    simp only [recurringCreate] at h
    by_cases g1 : strTrim (desc.getD "") = ""
    · rw [if_pos g1] at h; exact absurd h (by simp)
    rw [if_neg g1] at h
    by_cases g2 : 255 < (strTrim (desc.getD "")).length
    · rw [if_pos g2] at h; exact absurd h (by simp)
    rw [if_neg g2] at h
    by_cases g3 : amount ≤ 0
    · rw [if_pos g3] at h; exact absurd h (by simp)
    rw [if_neg g3] at h
    by_cases g4 : 1 / 100000000 < |normalize2 amount - amount|
    · rw [if_pos g4] at h; exact absurd h (by simp)
    rw [if_neg g4] at h
    cases hc : catRaw.bind (fun raw => jsParseInt raw) with
    | none => rw [hc] at h; exact absurd h (by simp)
    | some v =>
      rw [hc] at h
      dsimp only at h
      by_cases g5 : v ≤ 0
      · rw [if_pos g5] at h; exact absurd h (by simp)
      rw [if_neg g5] at h
      cases hf : db.categories.find? (fun cat => (cat.id : Int) = v) with
      | none => rw [hf] at h; exact absurd h (by simp)
      | some cat =>
        rw [hf] at h
        dsimp only at h
        by_cases g6 : 50 ≤ db.recurring.length
        · rw [if_pos g6] at h; exact absurd h (by simp)
        rw [if_neg g6] at h
        simp only [Except.ok.injEq, Prod.mk.injEq] at h
        have hrow : row.amount = normalize2 amount := by rw [← h.2]
        refine ⟨not_le.mp g3, hrow, ?_, ?_⟩
        · rw [hrow]
          exact normalize2_nonneg (not_le.mp g3)
        · rw [hrow]
          exact not_lt.mp g4
  · intro db p db2 res h
    intro row hrow
    simp only [importTemplates] at h
    split_ifs at h with h1 h2 h3
    cases hbc : buildCatMap p.categories 0 [] 0 with
    | error e => rw [hbc] at h; exact absurd h (by simp)
    | ok v =>
      rw [hbc] at h
      obtain ⟨pcats, skipCatDups⟩ := v
      dsimp only at h
      cases hbr : buildRecList pcats p.recurring 0 [] [] 0 with
      | error e => rw [hbr] at h; exact absurd h (by simp)
      | ok w =>
        rw [hbr] at h
        obtain ⟨nrecs, recDups⟩ := w
        dsimp only at h
        split_ifs at h with h4 h5
        cases hic : insertCats db (catMapOf db.categories)
            (pcats.filter (fun e => (lookupA (catMapOf db.categories) e.1).isNone)) 0 with
        | mk db1 v2 =>
          obtain ⟨categoryMap1, insCats⟩ := v2
          rw [hic] at h
          dsimp only at h
          cases hir : insertRecs db1 categoryMap1 (db.recurring.map rowRecKey) nrecs 0 0 with
          | error e => rw [hir] at h; exact absurd h (by simp)
          | ok u =>
            rw [hir] at h
            obtain ⟨db2x, insRec, skipRec⟩ := u
            dsimp only at h
            simp only [Except.ok.injEq, Prod.mk.injEq] at h
            have hdb2 : db2x = db2 := h.1
            subst hdb2
            have hrec1 : db1.recurring = db.recurring := by
              have := insertCats_recurring
                (pcats.filter (fun e => (lookupA (catMapOf db.categories) e.1).isNone))
                db (catMapOf db.categories) 0
              rw [hic] at this
              exact this
            rcases insertRecs_rows nrecs db1 categoryMap1 (db.recurring.map rowRecKey)
                0 0 db2x insRec skipRec hir row hrow with hm | ⟨nrec, hn, ha⟩
            · rw [hrec1] at hm
              exact Or.inl hm
            · rcases buildRecList_amounts p.recurring pcats 0 [] [] 0 nrecs recDups hbr
                nrec hn with hm2 | ⟨n, hn0, hna⟩
              · exact absurd hm2 (List.not_mem_nil _)
              · exact Or.inr ⟨n, hn0, by rw [ha, hna]⟩

section

attribute [local semireducible] Rat.mul Rat.add Rat.sub Rat.inv

theorem amount_validation_per_endpoint_witness :
    (∃ dbr, incomeCreate ⟨[], [], [], [], 1, 1, 1, 1⟩ "2025-01-01T00:00:00.000Z" 5 none =
      .ok (dbr, ⟨1, 5, "", "2025-01-01T00:00:00.000Z"⟩)) ∧
    (0 < (10 : ℚ) ∧ (⟨1, 1, "Rent", 10⟩ : RecRow).amount = normalize2 10 ∧
      (∃ n : ℤ, 0 ≤ n ∧ (⟨1, 1, "Rent", 10⟩ : RecRow).amount = (n : ℚ) / 100) ∧
      |(⟨1, 1, "Rent", 10⟩ : RecRow).amount - 10| ≤ 1 / 100000000) :=
  ⟨(amount_validation_per_endpoint.1 ⟨[], [], [], [], 1, 1, 1, 1⟩
      "2025-01-01T00:00:00.000Z" 5 none).2 (by decide),
   amount_validation_per_endpoint.2.2.1 ⟨[], [], [⟨1, "Food", "Necessities"⟩], [], 1, 1, 2, 1⟩
      (some "Rent") 10 (some "1")
      ⟨[], [], [⟨1, "Food", "Necessities"⟩], [⟨1, 1, "Rent", 10⟩], 1, 1, 2, 2⟩
      ⟨1, 1, "Rent", 10⟩ (by decide)⟩

/-- C8: importing the same valid template document twice is not always
idempotent in this revision. With 49 stored recurring templates, importing
a document carrying one new recurring template succeeds (inserting it and
reaching the cap of 50), but replaying the identical document fails with
HTTP 400 `Import would exceed the recurring template limit (50).` instead
of reporting `inserted 0/0`: the up-front cap check adds the payload's
whole deduplicated recurring count to the stored count, including rows the
insertion loop would skip as already present. -/
theorem import_replay_hits_recurring_cap :
    (importTemplates
        ⟨[], [], [⟨1, "Food", "Necessities"⟩],
          (List.range 49).map (fun i => ⟨i + 1, 1, "d" ++ toString i, 1⟩), 1, 1, 2, 50⟩
        ⟨"1.0", [⟨"Food", "Necessities"⟩], [⟨"Rent", 10, "Food"⟩]⟩ =
      .ok (⟨[], [], [⟨1, "Food", "Necessities"⟩],
          ((List.range 49).map (fun i => ⟨i + 1, 1, "d" ++ toString i, 1⟩)) ++
            [⟨50, 1, "Rent", 10⟩], 1, 1, 2, 51⟩,
        ⟨0, 1, 1, 0⟩)) ∧
    importTwice
        ⟨[], [], [⟨1, "Food", "Necessities"⟩],
          (List.range 49).map (fun i => ⟨i + 1, 1, "d" ++ toString i, 1⟩), 1, 1, 2, 50⟩
        ⟨"1.0", [⟨"Food", "Necessities"⟩], [⟨"Rent", 10, "Food"⟩]⟩ =
      .error ⟨400, "Import would exceed the recurring template limit (50)."⟩ := by
  constructor
  · decide
  · decide

end

end Bdgt
